import Mathlib

/-!
Verification development for the shadcn-svelte MCP server.

This file gives a shallow embedding in Lean 4 of the parts of the server that
the verified properties talk about:

* the JavaScript-level string helpers the source relies on
  (`String.prototype.includes`, `startsWith`, `split`, truthiness of `||`, ...);
* the circuit breaker (`src/utils/circuit-breaker.ts`): state machine,
  configuration defaulting, `execute`/`isOpen`/`onSuccess`/`onFailure`;
* the Joi-based validation layer (`src/utils/validation.ts`): per-method field
  rules, `validateRequest`, `getValidationSchema`, `validateAndSanitizeParams`;
* the `call_tool` request path of `src/handler.ts` (`handleRequest` wrapping the
  tool dispatcher, both protected by the same `circuitBreakers.external`
  instance);
* the resolver functions of `src/utils/axios.ts`: `extractDependencies` /
  `extractImports` (regex scans, embedded here as an explicit backtracking
  matcher for the exact patterns of the source), `getComponentSource`,
  `getAvailableComponents` with its fallback list, `getAvailableBlocks`,
  `buildDirectoryTree`, `buildDirectoryTreeWithFallback`,
  `getBasicSvelteStructure`, and the tool handler
  `handleGetDirectoryStructure`.

The remote GitHub endpoints are modelled by a `Host` record mapping request
paths to responses.  Promise rejections are modelled as `Except.error` carrying
a `JsError` (message, optional HTTP response, optional transport error code).
Per the GitHub contents API contract, the `path` field of an entry returned for
a directory listing is the listing path followed by `/` and the entry name;
the embedding constructs child paths that way.  `owner`/`repo`/`branch`
parameters only select the remote repository and are absorbed into `Host`.
-/

namespace ShadcnMcp

/-! ## JavaScript-level helpers -/

/-- Model of `a || d` for optional numeric config fields: `undefined` and `0`
are falsy and select the default. -/
def jsOrNat (v : Option Nat) (d : Nat) : Nat :=
  match v with
  | none => d
  | some 0 => d
  | some n => n

/-- Model of `a || d` for optional strings: `undefined` and `""` are falsy. -/
def jsOrStrOpt (v : Option String) (d : String) : String :=
  match v with
  | none => d
  | some s => if s = "" then d else s

/-- Truthiness of an optional string value (`undefined`, `null` and `""` are
falsy). -/
def jsTruthyStr (v : Option String) : Bool :=
  match v with
  | none => false
  | some s => s ≠ ""

/-- Model of `String.prototype.startsWith`. -/
def jsStartsWith (s pre : String) : Bool :=
  pre.data.isPrefixOf s.data

/-- Model of `String.prototype.endsWith`. -/
def jsEndsWith (s suf : String) : Bool :=
  suf.data.isSuffixOf s.data

/-- Substring test on character lists (used to model
`String.prototype.includes`). -/
def listContainsSub (sub : List Char) : List Char → Bool
  | [] => sub.isEmpty
  | l@(_ :: rest) => sub.isPrefixOf l || listContainsSub sub rest

/-- Model of `String.prototype.includes`. -/
def jsIncludes (s sub : String) : Bool :=
  listContainsSub sub.data s.data

/-- Model of `String.prototype.toLowerCase` (ASCII letters; the names
processed by the server are ASCII). -/
def jsToLower (s : String) : String :=
  String.mk (s.data.map Char.toLower)

/-- Model of `s.charAt(0).toUpperCase() + s.slice(1)`. -/
def jsCapitalize (s : String) : String :=
  match s.data with
  | [] => ""
  | c :: rest => String.mk (c.toUpper :: rest)

/-- Model of `String.prototype.replace` with a plain-string pattern: only the
first occurrence is replaced. -/
def jsReplaceFirstL (pat rep : List Char) : List Char → List Char
  | [] => if pat.isEmpty then rep else []
  | l@(c :: rest) =>
      if pat.isPrefixOf l then rep ++ l.drop pat.length
      else c :: jsReplaceFirstL pat rep rest

/-- Model of `String.prototype.replace` (first occurrence only). -/
def jsReplaceFirst (s pat rep : String) : String :=
  String.mk (jsReplaceFirstL pat.data rep.data s.data)

/-- Whitespace class of JavaScript regular expressions (`\s`), restricted to
the characters that occur in the processed sources. -/
def jsIsWs (c : Char) : Bool :=
  c == ' ' || c == '\t' || c == '\n' || c == '\r' ||
  c == Char.ofNat 0x0b || c == Char.ofNat 0x0c || c == Char.ofNat 0xa0

/-- Model of `String.prototype.trim`. -/
def jsTrim (s : String) : String :=
  String.mk (((s.data.dropWhile jsIsWs).reverse.dropWhile jsIsWs).reverse)

/-- Model of `String.prototype.split` with a one-character separator, as used
by `"a,b".split(',')`.  Splitting `"a,,b"` yields `["a", "", "b"]`. -/
def jsSplitCharAux (sep : Char) : List Char → List Char → List String
  | [], acc => [String.mk acc.reverse]
  | c :: rest, acc =>
      if c == sep then String.mk acc.reverse :: jsSplitCharAux sep rest []
      else jsSplitCharAux sep rest (c :: acc)

/-- Model of `String.prototype.split` with a one-character separator. -/
def jsSplitChar (s : String) (sep : Char) : List String :=
  jsSplitCharAux sep s.data []

/-- Model of `content.split('\n').length`: one more than the number of
newline characters. -/
def jsSplitLinesLen (s : String) : Nat :=
  s.data.count '\n' + 1

/-- Model of `path.split('/').length`: one more than the number of slashes. -/
def jsSplitSlashLen (s : String) : Nat :=
  s.data.count '/' + 1

/-- Model of the deduplication `[...new Set(xs)]`: keeps the first occurrence
of each element, preserving order. -/
def dedupFirstAux (seen : List String) : List String → List String
  | [] => []
  | x :: rest =>
      if seen.contains x then dedupFirstAux seen rest
      else x :: dedupFirstAux (x :: seen) rest

/-- Model of `[...new Set(xs)]`. -/
def dedupFirst (l : List String) : List String :=
  dedupFirstAux [] l

/-- Model of `Set.prototype.add`: appends unless already present. -/
def setAdd (l : List String) (x : String) : List String :=
  if l.contains x then l else l ++ [x]

/-- Model of `obj[k] = v` on a plain object represented as an association
list: an existing key keeps its position and gets the new value; a new key is
appended. -/
def insertAssoc {α : Type} (l : List (String × α)) (k : String) (v : α) :
    List (String × α) :=
  match l with
  | [] => [(k, v)]
  | (k', v') :: rest =>
      if k' = k then (k, v) :: rest else (k', v') :: insertAssoc rest k v

/-- Boolean success test for `Except`. -/
def exceptIsOk {ε α : Type} : Except ε α → Bool
  | .ok _ => true
  | .error _ => false

instance {ε α : Type} [DecidableEq ε] [DecidableEq α] :
    DecidableEq (Except ε α)
  | .error e1, .error e2 =>
      if h : e1 = e2 then .isTrue (by rw [h])
      else .isFalse (fun hc => absurd (by injection hc) h)
  | .error _, .ok _ => .isFalse (fun hc => Except.noConfusion hc)
  | .ok _, .error _ => .isFalse (fun hc => Except.noConfusion hc)
  | .ok a1, .ok a2 =>
      if h : a1 = a2 then .isTrue (by rw [h])
      else .isFalse (fun hc => absurd (by injection hc) h)


/-! ## Error values

A rejected promise carries a JavaScript `Error`-like value: a message, an
optional HTTP error response (as attached by the HTTP client), and an
optional transport error code (`ECONNREFUSED`, ...). -/

/-- HTTP error response attached to a rejected request
(`error.response.status`, `error.response.data?.message`). -/
structure HttpErrorResponse where
  status : Nat
  message : Option String := none
deriving DecidableEq

/-- JavaScript `Error`-like value observed by `catch` blocks. -/
structure JsError where
  message : String
  response : Option HttpErrorResponse := none
  code : Option String := none
deriving DecidableEq

/-! ## Circuit breaker (`src/utils/circuit-breaker.ts`) -/

/-- Circuit breaker states. -/
inductive CircuitBreakerState where
  | CLOSED
  | OPEN
  | HALF_OPEN
deriving DecidableEq

/-- Resolved circuit breaker configuration. -/
structure CircuitBreakerConfig where
  failureThreshold : Nat
  timeout : Nat
  successThreshold : Nat
deriving DecidableEq

/-- The `Partial<CircuitBreakerConfig>` constructor argument. -/
structure PartialCircuitBreakerConfig where
  failureThreshold : Option Nat := none
  timeout : Option Nat := none
  successThreshold : Option Nat := none

/-- Constructor defaulting: `config.failureThreshold || 5`,
`config.timeout || 60000`, `config.successThreshold || 2`. -/
def resolveConfig (c : PartialCircuitBreakerConfig) : CircuitBreakerConfig :=
  { failureThreshold := jsOrNat c.failureThreshold 5
    timeout := jsOrNat c.timeout 60000
    successThreshold := jsOrNat c.successThreshold 2 }

/-- Full state of one `CircuitBreaker` instance. -/
structure CircuitBreaker where
  state : CircuitBreakerState
  failures : Nat
  successes : Nat
  lastFailureTime : Nat
  config : CircuitBreakerConfig
deriving DecidableEq

/-- The `CircuitBreaker` constructor. -/
def mkCircuitBreaker (c : PartialCircuitBreakerConfig) : CircuitBreaker :=
  { state := .CLOSED, failures := 0, successes := 0, lastFailureTime := 0
    config := resolveConfig c }

/-- The private `isOpen` check.  It may mutate the breaker (transition
`OPEN → HALF_OPEN` once the timeout has elapsed), so it returns the updated
breaker together with the boolean result.  `now` is the value of `Date.now()`
at the time of the call. -/
def CircuitBreaker.isOpen (cb : CircuitBreaker) (now : Nat) :
    CircuitBreaker × Bool :=
  if cb.state = .OPEN then
    if now - cb.lastFailureTime ≥ cb.config.timeout then
      ({ cb with state := .HALF_OPEN, successes := 0 }, false)
    else (cb, true)
  else (cb, false)

/-- The private `onSuccess` handler. -/
def CircuitBreaker.onSuccess (cb : CircuitBreaker) : CircuitBreaker :=
  let cb := { cb with failures := 0 }
  if cb.state = .HALF_OPEN then
    if cb.successes + 1 ≥ cb.config.successThreshold then
      { cb with state := .CLOSED, successes := 0 }
    else { cb with successes := cb.successes + 1 }
  else cb

/-- The private `onFailure` handler; `now` records `Date.now()`. -/
def CircuitBreaker.onFailure (cb : CircuitBreaker) (now : Nat) : CircuitBreaker :=
  let cb := { cb with failures := cb.failures + 1, lastFailureTime := now }
  if cb.state = .CLOSED ∧ cb.failures ≥ cb.config.failureThreshold then
    { cb with state := .OPEN }
  else if cb.state = .HALF_OPEN then
    { cb with state := .OPEN, successes := 0 }
  else cb

/-- The error thrown by `execute` when the breaker is open. -/
def serviceUnavailableError : JsError :=
  { message := "Service temporarily unavailable due to previous failures" }

/-- Model of `execute<T>(fn)`.  The wrapped asynchronous function is modelled as a
state transformer on the breaker (it may itself use the same breaker, as the
`call_tool` handler does) returning either a value or a thrown error. -/
def CircuitBreaker.execute {α : Type} (cb : CircuitBreaker) (now : Nat)
    (fn : CircuitBreaker → CircuitBreaker × Except JsError α) :
    CircuitBreaker × Except JsError α :=
  let p := cb.isOpen now
  if p.2 then (p.1, .error serviceUnavailableError)
  else
    match fn p.1 with
    | (cb2, .ok a) => (cb2.onSuccess, .ok a)
    | (cb2, .error e) => (cb2.onFailure now, .error e)

/-- Model of `execute` applied to a wrapped function that does not touch the breaker
and either succeeds or fails. -/
def CircuitBreaker.executeOutcome (cb : CircuitBreaker) (now : Nat)
    (ok : Bool) : CircuitBreaker × Except JsError Unit :=
  cb.execute now (fun c =>
    (c, if ok then .ok () else .error { message := "failure" }))

/-- A sequence of failing calls at the given times. -/
def failSeq (cb : CircuitBreaker) (times : List Nat) : CircuitBreaker :=
  times.foldl (fun b t => (b.executeOutcome t false).1) cb

/-- A sequence of succeeding calls at the given times. -/
def succSeq (cb : CircuitBreaker) (times : List Nat) : CircuitBreaker :=
  times.foldl (fun b t => (b.executeOutcome t true).1) cb

/-- The two process-wide breaker instances of the source
(`circuitBreakers.github` and `circuitBreakers.external`). -/
def circuitBreakersGithub : CircuitBreaker :=
  mkCircuitBreaker { failureThreshold := some 3, timeout := some 30000 }

/-- The shared `circuitBreakers.external` instance protecting all request
handling. -/
def circuitBreakersExternal : CircuitBreaker :=
  mkCircuitBreaker { failureThreshold := some 5, timeout := some 60000 }

/-! ## Request validation (`src/utils/validation.ts`)

The Joi schemas of the source are declarative per-field rules: required or
optional, a primitive type, and length bounds.  Validation is run with
`abortEarly: false`, `stripUnknown: true`, `allowUnknown: false`: unknown
fields are silently stripped, and a Joi `string()` rejects the empty string
(no schema in the source uses `.allow('')`). -/

/-- JSON-like argument values of a request. -/
inductive JValue where
  | str (s : String)
  | bool (b : Bool)
  | obj (fields : List (String × JValue))
  | null

/-- Field lookup on an object value. -/
def JValue.getField (v : JValue) (k : String) : Option JValue :=
  match v with
  | .obj fs => (fs.find? (fun p => p.1 == k)).map (fun p => p.2)
  | _ => none

/-- Primitive Joi types used by the schemas of the source. -/
inductive FieldTy where
  | string
  | boolean
  | object
deriving DecidableEq

/-- One field rule: `Joi.<ty>()[.required()][.min(m)][.max(M)]`. -/
structure FieldRule where
  required : Bool
  ty : FieldTy
  minLen : Option Nat := none
  maxLen : Option Nat := none

/-- A Joi object schema: named field rules. -/
def JoiSchema := List (String × FieldRule)

/-- Validation of one present value against its rule. -/
def validateValue (rule : FieldRule) (v : JValue) : Except String Unit :=
  match rule.ty, v with
  | .string, .str s =>
      if s.length = 0 then .error "is not allowed to be empty"
      else if (match rule.minLen with
               | some m => decide (s.length < m)
               | none => false) then
        .error "is too short"
      else if (match rule.maxLen with
               | some m => decide (s.length > m)
               | none => false) then
        .error "is too long"
      else .ok ()
  | .boolean, .bool _ => .ok ()
  | .object, .obj _ => .ok ()
  | _, _ => .error "has the wrong type"

/-- Model of `validateRequest(schema, params)`: collects one message per violated
field (`abortEarly: false`), strips unknown fields, and fails with a
`Validation failed: ...` error when any field violates its rule. -/
def validateRequest (schema : JoiSchema) (params : JValue) :
    Except String JValue :=
  match params with
  | .obj _ =>
      let step := fun (acc : List String × List (String × JValue))
          (field : String × FieldRule) =>
        match params.getField field.1 with
        | none =>
            if field.2.required then (acc.1 ++ [field.1 ++ ": is required"], acc.2)
            else acc
        | some v =>
            match validateValue field.2 v with
            | .ok () => (acc.1, acc.2 ++ [(field.1, v)])
            | .error m => (acc.1 ++ [field.1 ++ ": " ++ m], acc.2)
      let r := schema.foldl step ([], [])
      if r.1.isEmpty then .ok (.obj r.2)
      else .error ("Validation failed: " ++ String.intercalate ", " r.1)
  | _ => .error "Validation failed: value must be of type object"

/-- Model of `validationSchemas.componentName`. -/
def schemaComponentName : JoiSchema :=
  [("componentName",
    { required := true, ty := .string, minLen := some 1, maxLen := some 100 })]

/-- Model of `validationSchemas.searchQuery`. -/
def schemaSearchQuery : JoiSchema :=
  [("query",
    { required := true, ty := .string, minLen := some 1, maxLen := some 500 })]

/-- Model of `validationSchemas.optionalQuery`. -/
def schemaOptionalQuery : JoiSchema :=
  [("query", { required := false, ty := .string, maxLen := some 500 })]

/-- Model of `validationSchemas.blockQuery`. -/
def schemaBlockQuery : JoiSchema :=
  [("query", { required := false, ty := .string, maxLen := some 500 }),
   ("category", { required := false, ty := .string, maxLen := some 100 })]

/-- Model of `validationSchemas.directoryStructure`. -/
def schemaDirectoryStructure : JoiSchema :=
  [("path", { required := false, ty := .string, maxLen := some 500 }),
   ("owner", { required := false, ty := .string, maxLen := some 100 }),
   ("repo", { required := false, ty := .string, maxLen := some 100 }),
   ("branch", { required := false, ty := .string, maxLen := some 100 })]

/-- Model of `validationSchemas.blockRequest`. -/
def schemaBlockRequest : JoiSchema :=
  [("blockName",
    { required := true, ty := .string, minLen := some 1, maxLen := some 200 }),
   ("includeComponents", { required := false, ty := .boolean })]

/-- Model of `validationSchemas.resourceRequest`. -/
def schemaResourceRequest : JoiSchema :=
  [("uri",
    { required := true, ty := .string, minLen := some 1, maxLen := some 1000 })]

/-- Model of `validationSchemas.promptRequest`. -/
def schemaPromptRequest : JoiSchema :=
  [("name",
    { required := true, ty := .string, minLen := some 1, maxLen := some 200 }),
   ("arguments", { required := false, ty := .object })]

/-- Model of `validationSchemas.toolRequest`. -/
def schemaToolRequest : JoiSchema :=
  [("name",
    { required := true, ty := .string, minLen := some 1, maxLen := some 200 }),
   ("arguments", { required := false, ty := .object })]

/-- Model of `getValidationSchema(method)`: the per-method schema map of the source.
Note that tool calls are routed with method name `call_tool`; the per-tool
entries (`get_component`, ...) exist in the map but are only reached when a
method of that very name is validated. -/
def getValidationSchema (method : String) : Option JoiSchema :=
  if method = "get_component" then some schemaComponentName
  else if method = "get_component_demo" then some schemaComponentName
  else if method = "get_component_metadata" then some schemaComponentName
  else if method = "get_component_details" then some schemaComponentName
  else if method = "get_examples" then some schemaComponentName
  else if method = "get_usage" then some schemaComponentName
  else if method = "search_components" then some schemaSearchQuery
  else if method = "get_themes" then some schemaOptionalQuery
  else if method = "get_blocks" then some schemaBlockQuery
  else if method = "get_directory_structure" then some schemaDirectoryStructure
  else if method = "get_block" then some schemaBlockRequest
  else if method = "read_resource" then some schemaResourceRequest
  else if method = "get_prompt" then some schemaPromptRequest
  else if method = "call_tool" then some schemaToolRequest
  else none

/-- Model of `validateAndSanitizeParams(method, params)`: methods without a registered
schema pass their parameters through unchanged. -/
def validateAndSanitizeParams (method : String) (params : JValue) :
    Except String JValue :=
  match getValidationSchema method with
  | none => .ok params
  | some schema => validateRequest schema params

/-! ## The `call_tool` request path (`src/handler.ts`)

`handleRequest` validates the raw parameters and runs the per-method handler
inside `circuitBreakers.external.execute`.  The `call_tool` handler then looks
up the tool and runs it inside `circuitBreakers.external.execute` a second
time — the same shared instance, nested.  The tool handlers themselves are
abstracted by a `toolRuns` oracle telling whether a given tool invocation
succeeds; a successful dispatch reports which tool ran with which argument
object. -/

/-- The keys of `toolHandlers` (`src/tools/index.ts`). -/
def toolNames : List String :=
  ["get_component", "get_component_demo", "list_components",
   "get_component_metadata", "get_directory_structure", "get_block",
   "list_blocks"]

/-- Model of `params || {}` in `handler(params || {})`. -/
def jsOrEmptyObj (v : Option JValue) : JValue :=
  match v with
  | none => .obj []
  | some .null => .obj []
  | some (.bool false) => .obj []
  | some (.str "") => .obj []
  | some x => x

/-- The `call_tool` request path: validation, then the outer
`circuitBreakers.external.execute` around the dispatcher, which runs the tool
inside an inner `circuitBreakers.external.execute` on the same breaker.  The
result names the tool that was invoked and the argument object handed to it. -/
def handleCallTool (cb : CircuitBreaker) (now : Nat) (params : JValue)
    (toolRuns : String → JValue → Bool) :
    CircuitBreaker × Except JsError (String × JValue) :=
  match validateAndSanitizeParams "call_tool" params with
  | .error msg => (cb, .error { message := msg })
  | .ok validated =>
      cb.execute now (fun c =>
        match validated.getField "name" with
        | some (.str name) =>
            if name = "" then (c, .error { message := "Tool name is required" })
            else if toolNames.contains name then
              let args := jsOrEmptyObj (validated.getField "arguments")
              c.execute now (fun c2 =>
                (c2, if toolRuns name args then .ok (name, args)
                     else .error { message := "Tool execution failed" }))
            else (c, .error { message := "Tool not found: " ++ name })
        | _ => (c, .error { message := "Tool name is required" }))

/-- A sequence of failing `call_tool` invocations at the given times, with a
fixed valid request naming an existing tool. -/
def failToolSeq (cb : CircuitBreaker) (times : List Nat) : CircuitBreaker :=
  times.foldl
    (fun b t =>
      (handleCallTool b t
        (.obj [("name", .str "get_component"),
               ("arguments", .obj [("componentName", .str "button")])])
        (fun _ _ => false)).1)
    cb

/-! ## Extractor (`extractDependencies` / `extractImports`)

The source scans text with JavaScript regular expressions in a
`while ((match = re.exec(code)) !== null)` loop.  The embedding implements a
backtracking matcher for the exact patterns of the source:

* `/import\s+.*?\s+from\s+['"]([@\w\/\-\.]+)['"]/g` (dependencies),
* `/import\s+\{([^}]+)\}\s+from/g` (named imports),
* `/import\s+(\w+)\s+from/g` (default imports),
* `/import\s+\*\s+as\s+(\w+)\s+from/g` (namespace imports).

A greedy `\s+` whose follower starts with a non-whitespace character, and a
greedy character-class `+` whose follower is excluded from the class, are
deterministic; the only genuine choice points are the `\s+` directly after
`import` (longest first) and the lazy `.*?` (shortest first, never consuming a
line terminator), which the matcher explores in standard backtracking order.
The `g`-flag `exec` loop restarts at the end of the previous match, or one
character further on failure, exactly as `lastIndex` does. -/

/-- Characters matched by `.` in a JavaScript regex (everything except line
terminators). -/
def jsDotMatches (c : Char) : Bool :=
  !(c == '\n' || c == '\r' || c == Char.ofNat 0x2028 || c == Char.ofNat 0x2029)

/-- Model of `\w` of JavaScript regexes: `[A-Za-z0-9_]`. -/
def jsIsWordChar (c : Char) : Bool :=
  c.isAlphanum || c == '_'

/-- The character class `[@\w\/\-\.]` of the dependency pattern. -/
def isDepChar (c : Char) : Bool :=
  c == '@' || jsIsWordChar c || c == '/' || c == '-' || c == '.'

/-- Quote characters `['"]`. -/
def isQuoteChar (c : Char) : Bool :=
  c == '"' || c == Char.ofNat 39

/-- Suffixes reachable by consuming one or more whitespace characters,
longest consumption first (backtracking order of a greedy `\s+`). -/
def wsSuffixesAux : List Char → List (List Char) → List (List Char)
  | c :: rest, acc =>
      if jsIsWs c then wsSuffixesAux rest (rest :: acc) else acc
  | [], acc => acc

/-- Suffixes reachable by a greedy `\s+`, longest first. -/
def wsSuffixes (l : List Char) : List (List Char) :=
  wsSuffixesAux l []

/-- Suffixes reachable by a lazy `.*?`, shortest first; `.` never consumes a
line terminator. -/
def lazyDotSuffixes : List Char → List (List Char)
  | [] => [[]]
  | l@(c :: rest) =>
      if jsDotMatches c then l :: lazyDotSuffixes rest else [l]

/-- First success over an ordered candidate list. -/
def firstSome {α β : Type} (l : List α) (f : α → Option β) : Option β :=
  (l.filterMap f).head?

/-- Consume an exact literal. -/
def stripLit (pre l : List Char) : Option (List Char) :=
  if pre.isPrefixOf l then some (l.drop pre.length) else none

/-- Consume a `\s+` whose follower begins with a non-whitespace character
(deterministic: only the maximal consumption can succeed). -/
def stripWsPlus (l : List Char) : Option (List Char) :=
  match l with
  | c :: _ => if jsIsWs c then some (l.dropWhile jsIsWs) else none
  | [] => none

/-- Consume a greedy nonempty run of the given class, where the follower is
excluded from the class (deterministic). -/
def takeClassPlus (cls : Char → Bool) (l : List Char) :
    Option (List Char × List Char) :=
  let cap := l.takeWhile cls
  if cap.isEmpty then none else some (cap, l.dropWhile cls)

/-- The tail `\s+from\s+['"]([@\w\/\-\.]+)['"]` of the dependency pattern,
matched at the current position. -/
def depTail (l : List Char) : Option (String × List Char) :=
  (stripWsPlus l).bind fun a =>
  (stripLit ['f', 'r', 'o', 'm'] a).bind fun b =>
  (stripWsPlus b).bind fun c =>
  match c with
  | q :: rest =>
      if isQuoteChar q then
        (takeClassPlus isDepChar rest).bind fun p =>
        match p.2 with
        | q2 :: rest2 =>
            if isQuoteChar q2 then some (String.mk p.1, rest2) else none
        | [] => none
      else none
  | [] => none

/-- Match of `/import\s+.*?\s+from\s+['"]([@\w\/\-\.]+)['"]/` anchored at the
current position: the literal `import`, a greedy `\s+` (longest first), a lazy
`.*?` (shortest first), then the deterministic tail.  Returns the capture and
the remainder after the match. -/
def depMatchAt (l : List Char) : Option (String × List Char) :=
  (stripLit ['i', 'm', 'p', 'o', 'r', 't'] l).bind fun rest =>
  firstSome (wsSuffixes rest) fun afterWs =>
  firstSome (lazyDotSuffixes afterWs) depTail

/-- Match of `/import\s+\{([^}]+)\}\s+from/` anchored at the current
position. -/
def namedImportMatchAt (l : List Char) : Option (String × List Char) :=
  (stripLit ['i', 'm', 'p', 'o', 'r', 't'] l).bind fun a =>
  (stripWsPlus a).bind fun b =>
  (stripLit [Char.ofNat 123] b).bind fun c =>
  (takeClassPlus (fun ch => ch != Char.ofNat 125) c).bind fun p =>
  (stripLit [Char.ofNat 125] p.2).bind fun d =>
  (stripWsPlus d).bind fun e =>
  (stripLit ['f', 'r', 'o', 'm'] e).map fun f => (String.mk p.1, f)

/-- Match of `/import\s+(\w+)\s+from/` anchored at the current position. -/
def defaultImportMatchAt (l : List Char) : Option (String × List Char) :=
  (stripLit ['i', 'm', 'p', 'o', 'r', 't'] l).bind fun a =>
  (stripWsPlus a).bind fun b =>
  (takeClassPlus jsIsWordChar b).bind fun p =>
  (stripWsPlus p.2).bind fun c =>
  (stripLit ['f', 'r', 'o', 'm'] c).map fun d => (String.mk p.1, d)

/-- Match of `/import\s+\*\s+as\s+(\w+)\s+from/` anchored at the current
position. -/
def namespaceImportMatchAt (l : List Char) : Option (String × List Char) :=
  (stripLit ['i', 'm', 'p', 'o', 'r', 't'] l).bind fun a =>
  (stripWsPlus a).bind fun b =>
  (stripLit ['*'] b).bind fun c =>
  (stripWsPlus c).bind fun d =>
  (stripLit ['a', 's'] d).bind fun e =>
  (stripWsPlus e).bind fun f =>
  (takeClassPlus jsIsWordChar f).bind fun p =>
  (stripWsPlus p.2).bind fun g =>
  (stripLit ['f', 'r', 'o', 'm'] g).map fun h => (String.mk p.1, h)

/-- The `exec` loop of a `g`-flagged regex: scan left to right, collect each
capture, and continue after the end of each match.  Every pattern above
consumes at least the literal `import`, so the number of steps is bounded by
the text length, which the fuel makes structural. -/
def regexExecAux (matchAt : List Char → Option (String × List Char)) :
    Nat → List Char → List String
  | 0, _ => []
  | _ + 1, [] => []
  | fuel + 1, l@(_ :: rest) =>
      match matchAt l with
      | some (cap, rest2) => cap :: regexExecAux matchAt fuel rest2
      | none => regexExecAux matchAt fuel rest

/-- All captures of a `g`-flagged regex over a text. -/
def regexExec (matchAt : List Char → Option (String × List Char))
    (code : String) : List String :=
  regexExecAux matchAt code.data.length code.data

/-- The filter of `extractDependencies`: discard specifiers starting with
`./`, `../`, `$`, or `/`. -/
def depAllowed (d : String) : Bool :=
  !(jsStartsWith d "./") && !(jsStartsWith d "../") &&
  !(jsStartsWith d "$") && !(jsStartsWith d "/")

/-- The raw dependency specifiers collected by the `exec` loop of
`extractDependencies`, after the `startsWith` filter, in match order. -/
def collectedDeps (code : String) : List String :=
  (regexExec depMatchAt code).filter depAllowed

/-- Model of `extractDependencies(code)`: filtered specifiers, deduplicated via
`[...new Set(...)]`. -/
def extractDependencies (code : String) : List String :=
  dedupFirst (collectedDeps code)

/-- Processing of one named-import capture: split on commas and trim when it
contains a comma, trim otherwise. -/
def splitNamedImports (cap : String) : List String :=
  if jsIncludes cap "," then (jsSplitChar cap ',').map jsTrim
  else [jsTrim cap]

/-- Model of `extractImports(code)`: the three patterns are run in order, their
processed captures concatenated, then deduplicated via `[...new Set(...)]`. -/
def extractImports (code : String) : List String :=
  let p1 := ((regexExec namedImportMatchAt code).map splitNamedImports).flatten
  let p2 := (regexExec defaultImportMatchAt code).map jsTrim
  let p3 := (regexExec namespaceImportMatchAt code).map jsTrim
  dedupFirst (p1 ++ p2 ++ p3)

/-! ## Repository constants and the remote host model -/

/-- Repository owner constant of the source. -/
def REPO_OWNER : String := "huntabyte"

/-- Repository name constant of the source. -/
def REPO_NAME : String := "shadcn-svelte"

/-- Branch constant of the source. -/
def REPO_BRANCH : String := "main"

/-- Registry root path constant of the source. -/
def DOCS_BASE_PATH : String := "docs/src/lib/registry"

/-- Path of the component registry. -/
def REGISTRY_UI_PATH : String := DOCS_BASE_PATH ++ "/ui"

/-- Path of the examples registry. -/
def REGISTRY_EXAMPLES_PATH : String := DOCS_BASE_PATH ++ "/examples"

/-- Path of the blocks registry. -/
def REGISTRY_BLOCKS_PATH : String := DOCS_BASE_PATH ++ "/blocks"

/-- Entry kinds of the GitHub contents API (`type: "file" | "dir" | ...`). -/
inductive ItemKind where
  | file
  | dir
  | other
deriving DecidableEq

/-- One entry of a contents-API directory listing. -/
structure Item where
  name : String
  type : ItemKind
  size : Option Nat := none
  download_url : Option String := none
  sha : String := ""
deriving DecidableEq

/-- The body a contents-API request resolves with: a JSON array for a
directory, a single object for a file, an object with a `message` field for
an API error body, or missing/empty (falsy) data. -/
inductive ListingData where
  | arr (items : List Item)
  | single (it : Item)
  | msgObj (message : String)
  | falsy
deriving DecidableEq

/-- The remote host: the contents/listing endpoint (`githubApi`) and the
raw-file endpoint (`githubRaw`), both keyed by request path.  A rejected
request is an `Except.error` carrying the `JsError` seen by `catch`. -/
structure Host where
  listing : String → Except JsError ListingData
  raw : String → Except JsError String

/-! ## `getComponentSource` (`src/utils/axios.ts`) -/

/-- One entry of `componentStructure.files`. -/
structure FileEntry where
  path : String
  content : String
  size : Nat
  lines : Nat
  dependencies : List String
  imports : List String
deriving DecidableEq

/-- One entry of `componentStructure.structure`. -/
structure StructEntry where
  name : String
  type : String
  size : Nat
  fileType : String
deriving DecidableEq

/-- The assembled `componentStructure` returned by `getComponentSource`.
`files` is the object keyed by file name; `structureEntries` mirrors the
`structure` array (renamed because `structure` is a Lean keyword);
`dependencies`/`imports` are the aggregated sets in insertion order. -/
structure ComponentBundle where
  name : String
  type : String
  files : List (String × FileEntry)
  structureEntries : List StructEntry
  totalFiles : Nat
  dependencies : List String
  imports : List String
deriving DecidableEq

/-- The `catch` block of `getComponentSource`: a 404 response becomes the
`NotFound` error, everything else is rethrown. -/
def gcsCatch (componentName : String) (e : JsError) : JsError :=
  match e.response with
  | some r =>
      if r.status = 404 then
        { message := "Component \"" ++ componentName ++
            "\" not found in shadcn-svelte registry" }
      else e
  | none => e

/-- The loop body of `getComponentSource` over the directory entries:
`.svelte`/`.ts` files are fetched from the raw endpoint, run through the
extractors and accumulated; other entries are skipped.  Returns the
accumulated files, structure entries, dependency set and import set (or the
first fetch error), together with the list of raw paths requested. -/
def gcsLoop (host : Host) (componentPath : String) :
    List Item → List (String × FileEntry) → List StructEntry →
    List String → List String →
    Except JsError
      (List (String × FileEntry) × List StructEntry ×
        List String × List String) × List String
  | [], files, structs, deps, imps => (.ok (files, structs, deps, imps), [])
  | it :: rest, files, structs, deps, imps =>
      if it.type = .file ∧
          (jsEndsWith it.name ".svelte" || jsEndsWith it.name ".ts") then
        let filePath := componentPath ++ "/" ++ it.name
        match host.raw filePath with
        | .error e => (.error e, [filePath])
        | .ok content =>
            let fdeps := extractDependencies content
            let fimps := extractImports content
            let fe : FileEntry :=
              { path := it.name, content := content, size := content.length
                lines := jsSplitLinesLen content
                dependencies := fdeps, imports := fimps }
            let se : StructEntry :=
              { name := it.name, type := "file", size := content.length
                fileType :=
                  if jsEndsWith it.name ".svelte" then "svelte"
                  else "typescript" }
            let r := gcsLoop host componentPath rest
              (insertAssoc files it.name fe) (structs ++ [se])
              (fdeps.foldl setAdd deps) (fimps.foldl setAdd imps)
            (r.1, filePath :: r.2)
      else gcsLoop host componentPath rest files structs deps imps

/-- Model of `getComponentSource(componentName)`.  Returns the bundle (or the thrown
error after the `catch` mapping) together with the list of request paths
issued against the host, the listing path first. -/
def getComponentSource (host : Host) (componentName : String) :
    Except JsError ComponentBundle × List String :=
  let componentPath := REGISTRY_UI_PATH ++ "/" ++ jsToLower componentName
  match host.listing componentPath with
  | .error e => (.error (gcsCatch componentName e), [componentPath])
  | .ok .falsy =>
      (.error (gcsCatch componentName
        { message := "Component \"" ++ componentName ++ "\" not found" }),
       [componentPath])
  | .ok (.arr items) =>
      match gcsLoop host componentPath items [] [] [] [] with
      | (.error e, trace) =>
          (.error (gcsCatch componentName e), componentPath :: trace)
      | (.ok acc, trace) =>
          (.ok { name := componentName, type := "svelte-component"
                 files := acc.1, structureEntries := acc.2.1
                 totalFiles := items.length
                 dependencies := acc.2.2.1, imports := acc.2.2.2 },
           componentPath :: trace)
  | .ok (.single _) | .ok (.msgObj _) =>
      (.ok { name := componentName, type := "svelte-component"
             files := [], structureEntries := [], totalFiles := 0
             dependencies := [], imports := [] },
       [componentPath])

/-! ## `getAvailableComponents` and the fallback list -/

/-- Model of `getFallbackComponents()`: the hard-coded component list. -/
def getFallbackComponents : List String :=
  ["accordion", "alert", "alert-dialog", "aspect-ratio", "avatar", "badge",
   "breadcrumb", "button", "calendar", "card", "carousel", "checkbox",
   "collapsible", "command", "context-menu", "dialog", "drawer",
   "dropdown-menu", "form", "hover-card", "input", "input-otp", "label",
   "menubar", "navigation-menu", "pagination", "popover", "progress",
   "radio-group", "resizable", "scroll-area", "select", "separator", "sheet",
   "skeleton", "slider", "sonner", "switch", "table", "tabs", "textarea",
   "toggle", "toggle-group", "tooltip"]

/-- Lexicographic order on character lists by code point, modelling the
default comparator of `Array.prototype.sort` on strings. -/
def charListLe : List Char → List Char → Bool
  | [], _ => true
  | _ :: _, [] => false
  | a :: as, b :: bs =>
      if a < b then true else if b < a then false else charListLe as bs

/-- String order used by `components.sort()`. -/
def jsStrLe (a b : String) : Prop :=
  charListLe a.data b.data = true

instance : DecidableRel jsStrLe := fun a b => by
  unfold jsStrLe; infer_instance

/-- Model of `components.sort()` (default string comparator; stable, as
mandated for `Array.prototype.sort`). -/
def jsSortStrings (l : List String) : List String :=
  List.insertionSort jsStrLe l

/-- The `try` block of `getAvailableComponents`: reject non-array/falsy data,
filter to directory entries, map to names, reject an empty result, sort. -/
def gacTry (r : Except JsError ListingData) : Except JsError (List String) :=
  match r with
  | .error e => .error e
  | .ok (.arr items) =>
      let components := (items.filter (fun it => it.type == .dir)).map Item.name
      if components.isEmpty then
        .error { message := "No components found in the registry" }
      else .ok (jsSortStrings components)
  | .ok _ => .error { message := "Invalid response from GitHub API" }

/-- The transport error codes recognised by the `catch` block. -/
def isNetErrorCode (c : Option String) : Bool :=
  c == some "ECONNREFUSED" || c == some "ENOTFOUND" || c == some "ETIMEDOUT"

/-- The `catch` block of `getAvailableComponents`: failures carrying an HTTP
response are mapped to descriptive errors and rethrown; recognised transport
errors are rethrown; anything else logs a warning and returns the fallback
list.  The boolean records whether the fallback warning was logged. -/
def gacCatch (e : JsError) : Except JsError (List String) × Bool :=
  match e.response with
  | some r =>
      let status := r.status
      let message := jsOrStrOpt r.message "Unknown error"
      if status = 403 ∧ jsIncludes message "rate limit" then
        (.error { message := "GitHub API rate limit exceeded. Please set " ++
            "GITHUB_PERSONAL_ACCESS_TOKEN environment variable for higher " ++
            "limits. Error: " ++ message }, false)
      else if status = 404 then
        (.error { message := "Components directory not found. The path " ++
            REGISTRY_UI_PATH ++ " may not exist in the repository." }, false)
      else if status = 401 then
        (.error { message := "Authentication failed. Please check your " ++
            "GITHUB_PERSONAL_ACCESS_TOKEN if provided." }, false)
      else
        (.error { message := "GitHub API error (" ++ toString status ++ "): " ++
            message }, false)
  | none =>
      if isNetErrorCode e.code then
        (.error { message := "Network error: " ++ e.message ++
            ". Please check your internet connection." }, false)
      else (.ok getFallbackComponents, true)

/-- Model of `getAvailableComponents()`, as a function of the outcome of the listing
request for `REGISTRY_UI_PATH`.  The boolean records whether the fallback
warning was logged. -/
def getAvailableComponents (r : Except JsError ListingData) :
    Except JsError (List String) × Bool :=
  match gacTry r with
  | .ok comps => (.ok comps, false)
  | .error e => gacCatch e

/-! ## `getAvailableBlocks` (`src/utils/axios.ts`) -/

/-- Strict lexicographic order on character lists by code point. -/
def charListLt : List Char → List Char → Bool
  | [], [] => false
  | [], _ :: _ => true
  | _ :: _, [] => false
  | a :: as, b :: bs =>
      if a < b then true else if b < a then false else charListLt as bs

/-- Model of an `a.localeCompare(b) <= 0` comparison: primary comparison is
case-insensitive (lower-cased code points), ties broken by the raw code
points.  On the lower-case ASCII block names of the registry this coincides
with plain lexicographic order. -/
def jsLocaleLe (a b : String) : Bool :=
  let la := a.data.map Char.toLower
  let lb := b.data.map Char.toLower
  if charListLt la lb then true
  else if charListLt lb la then false
  else charListLe a.data b.data

/-- The entry objects built by `getAvailableBlocks` for each listing item. -/
structure BlockInfo where
  name : String
  type : String
  path : String
  size : Nat
  lastModified : String
  description : String
deriving DecidableEq

/-- The comparator `(a, b) => a.name.localeCompare(b.name)` as a relation. -/
def blockInfoLe (a b : BlockInfo) : Prop :=
  jsLocaleLe a.name b.name = true

instance : DecidableRel blockInfoLe := fun a b => by
  unfold blockInfoLe; infer_instance

/-- The seven category buckets, in the insertion order of the object literal
of the source (`calendar, dashboard, login, sidebar, authentication, charts,
other`). -/
structure BlocksRec where
  calendar : List BlockInfo
  dashboard : List BlockInfo
  login : List BlockInfo
  sidebar : List BlockInfo
  authentication : List BlockInfo
  charts : List BlockInfo
  other : List BlockInfo
deriving DecidableEq

/-- The empty bucket record. -/
def emptyBlocksRec : BlocksRec := ⟨[], [], [], [], [], [], []⟩

/-- The `blockInfo` object before the per-category description is attached:
`name` strips a `.svelte` suffix (first occurrence, as
`String.prototype.replace` does), `type` discriminates file vs directory,
`path` follows the contents-API contract, `size` is `item.size || 0`,
`lastModified` is `item.download_url ? 'Available' : 'Directory'`. -/
def mkBlockInfoBase (it : Item) : BlockInfo :=
  { name := jsReplaceFirst it.name ".svelte" ""
    type := if it.type == .file then "simple" else "complex"
    path := REGISTRY_BLOCKS_PATH ++ "/" ++ it.name
    size := jsOrNat it.size 0
    lastModified := if jsTruthyStr it.download_url then "Available" else "Directory"
    description := "" }

/-- The categorisation loop body: the `if`/`else if` chain on
`item.name.includes(...)`, pushing the entry (with its per-category
description) into the first matching bucket, `other` otherwise. -/
def blocksStep (b : BlocksRec) (it : Item) : BlocksRec :=
  let info := mkBlockInfoBase it
  if jsIncludes it.name "calendar" then
    { b with calendar := b.calendar ++
        [{ info with description :=
            "Calendar component for date selection and scheduling" }] }
  else if jsIncludes it.name "dashboard" then
    { b with dashboard := b.dashboard ++
        [{ info with description :=
            "Dashboard layout with charts, metrics, and data display" }] }
  else if jsIncludes it.name "login" || jsIncludes it.name "signin" then
    { b with login := b.login ++
        [{ info with description := "Authentication and login interface" }] }
  else if jsIncludes it.name "sidebar" then
    { b with sidebar := b.sidebar ++
        [{ info with description := "Navigation sidebar component" }] }
  else if jsIncludes it.name "auth" then
    { b with authentication := b.authentication ++
        [{ info with description := "Authentication related components" }] }
  else if jsIncludes it.name "chart" || jsIncludes it.name "graph" then
    { b with charts := b.charts ++
        [{ info with description :=
            "Data visualization and chart components" }] }
  else
    { b with other := b.other ++
        [{ info with description := it.name ++ " - Custom UI block" }] }

/-- The categorisation loop over the whole listing. -/
def blocksFold (items : List Item) : BlocksRec :=
  items.foldl blocksStep emptyBlocksRec

/-- The per-category sort
`blocks[key].sort((a, b) => a.name.localeCompare(b.name))` (stable, as
`Array.prototype.sort` is). -/
def sortBlocks (l : List BlockInfo) : List BlockInfo :=
  List.insertionSort blockInfoLe l

/-- Sorting applied to every bucket. -/
def sortBlocksRec (b : BlocksRec) : BlocksRec :=
  { calendar := sortBlocks b.calendar, dashboard := sortBlocks b.dashboard
    login := sortBlocks b.login, sidebar := sortBlocks b.sidebar
    authentication := sortBlocks b.authentication
    charts := sortBlocks b.charts, other := sortBlocks b.other }

/-- Model of `Object.keys(blocks)` in insertion order, paired with the buckets. -/
def recPairs (b : BlocksRec) : List (String × List BlockInfo) :=
  [("calendar", b.calendar), ("dashboard", b.dashboard), ("login", b.login),
   ("sidebar", b.sidebar), ("authentication", b.authentication),
   ("charts", b.charts), ("other", b.other)]

/-- The property lookup `blocks[categoryLower]`, restricted to the own keys
of the object literal. -/
def recGet (b : BlocksRec) (key : String) : Option (List BlockInfo) :=
  ((recPairs b).find? (fun p => p.1 == key)).map (fun p => p.2)

/-- The non-empty category keys, in insertion order. -/
def nonEmptyCategories (b : BlocksRec) : List String :=
  (((recPairs b).filter (fun p => !p.2.isEmpty)).map (fun p => p.1))

/-- Model of `Object.values(blocks).flat().length`. -/
def totalBlocksCount (b : BlocksRec) : Nat :=
  ((recPairs b).map (fun p => p.2.length)).sum

/-- The `summary` object: category name to count, non-empty buckets only. -/
def blocksSummary (b : BlocksRec) : List (String × Nat) :=
  (((recPairs b).filter (fun p => !p.2.isEmpty)).map
    (fun p => (p.1, p.2.length)))

/-- The `examples` array: up to three `category: firstBlockName` strings. -/
def blocksExamples (b : BlocksRec) : List String :=
  ((nonEmptyCategories b).take 3).filterMap fun cat =>
    (recGet b cat).bind fun l =>
      l.head?.map fun b0 => cat ++ ": " ++ b0.name

/-- The three result shapes of `getAvailableBlocks`: the full categorised
map, a single filtered category, or the empty result for an unknown filter. -/
inductive BlocksResult where
  | full (categories : BlocksRec) (totalBlocks : Nat)
      (availableCategories : List String) (summary : List (String × Nat))
      (usage : String) (examples : List String)
  | filtered (category : String) (blocks : List BlockInfo) (total : Nat)
      (description : String) (usage : String)
  | noMatch (category : String) (blocks : List BlockInfo) (total : Nat)
      (availableCategories : List String) (suggestion : String)
deriving DecidableEq

/-- Specification-side category labels for the fixed bucket set of
`getAvailableBlocks`. -/
inductive BlockCategory where
  | calendar
  | dashboard
  | login
  | sidebar
  | authentication
  | charts
  | other
deriving DecidableEq

/-- Specification-side classification of one listing entry: name-substring
matching with the ordered precedence calendar, dashboard, login/signin,
sidebar, auth, chart/graph, else `other`. -/
def categorize (itemName : String) : BlockCategory :=
  if jsIncludes itemName "calendar" then .calendar
  else if jsIncludes itemName "dashboard" then .dashboard
  else if jsIncludes itemName "login" || jsIncludes itemName "signin" then .login
  else if jsIncludes itemName "sidebar" then .sidebar
  else if jsIncludes itemName "auth" then .authentication
  else if jsIncludes itemName "chart" || jsIncludes itemName "graph" then .charts
  else .other

/-- The per-category description attached to a classified entry. -/
def descFor (c : BlockCategory) (itemName : String) : String :=
  match c with
  | .calendar => "Calendar component for date selection and scheduling"
  | .dashboard => "Dashboard layout with charts, metrics, and data display"
  | .login => "Authentication and login interface"
  | .sidebar => "Navigation sidebar component"
  | .authentication => "Authentication related components"
  | .charts => "Data visualization and chart components"
  | .other => itemName ++ " - Custom UI block"

/-- The fully described entry for one listing item. -/
def mkBlockInfoCat (it : Item) : BlockInfo :=
  { mkBlockInfoBase it with description := descFor (categorize it.name) it.name }

/-- The bucket of a category label. -/
def catList (b : BlocksRec) : BlockCategory → List BlockInfo
  | .calendar => b.calendar
  | .dashboard => b.dashboard
  | .login => b.login
  | .sidebar => b.sidebar
  | .authentication => b.authentication
  | .charts => b.charts
  | .other => b.other

/-- Appending an entry to the bucket of a category label. -/
def pushCat (b : BlocksRec) (c : BlockCategory) (x : BlockInfo) : BlocksRec :=
  match c with
  | .calendar => { b with calendar := b.calendar ++ [x] }
  | .dashboard => { b with dashboard := b.dashboard ++ [x] }
  | .login => { b with login := b.login ++ [x] }
  | .sidebar => { b with sidebar := b.sidebar ++ [x] }
  | .authentication => { b with authentication := b.authentication ++ [x] }
  | .charts => { b with charts := b.charts ++ [x] }
  | .other => { b with other := b.other ++ [x] }

/-- The `catch` block of `getAvailableBlocks`: a 404 response becomes the
blocks-directory `NotFound` error, everything else is rethrown. -/
def gabCatch (e : JsError) : JsError :=
  match e.response with
  | some r =>
      if r.status = 404 then
        { message := "Blocks directory not found in the shadcn-svelte registry" }
      else e
  | none => e

/-- The constant usage string of the filtered result. -/
def filteredUsage : String :=
  "Use 'getBlockCode' function with the block name to get the full source " ++
  "code and implementation details."

/-- The constant usage string of the full result. -/
def fullUsage : String :=
  "Use 'getBlockCode' function with a specific block name to get full " ++
  "source code and implementation details."

/-- Model of `getAvailableBlocks(category?)`, as a function of the outcome of the
listing request for `REGISTRY_BLOCKS_PATH`. -/
def getAvailableBlocks (category : Option String)
    (r : Except JsError ListingData) : Except JsError BlocksResult :=
  match r with
  | .error e => .error (gabCatch e)
  | .ok (.arr items) =>
      let blocks := sortBlocksRec (blocksFold items)
      match category with
      | some cat =>
          let categoryLower := jsToLower cat
          match recGet blocks categoryLower with
          | some lst =>
              .ok (.filtered cat lst lst.length
                (jsCapitalize cat ++ " blocks available in shadcn-svelte")
                filteredUsage)
          | none =>
              .ok (.noMatch cat [] 0 (nonEmptyCategories blocks)
                ("Category '" ++ cat ++ "' not found. Available categories: " ++
                  String.intercalate ", " (nonEmptyCategories blocks)))
      | none =>
          .ok (.full blocks (totalBlocksCount blocks)
            (nonEmptyCategories blocks) (blocksSummary blocks) fullUsage
            (blocksExamples blocks))
  | .ok _ =>
      .error (gabCatch { message := "Unexpected response from GitHub API" })

/-! ## `buildDirectoryTree` and the directory-structure tool

The recursive tree builder lists a path; file entries become leaves,
directory entries are recursed into only while
`path.split('/').length < 8` holds for the *current* path; a failed
sub-directory fetch is caught and recorded as an error marker node.  Child
paths follow the contents-API contract (listing path + `/` + entry name), so
every recursion step increases the segment count by at least one.  The
recursion is therefore presented on a fuel argument that bounds the nesting
depth only; `buildDirectoryTree` instantiates it with `9`, which
`buildDirectoryTreeFuel_stable` below proves can never be exhausted, making
the fuel a pure presentation device. -/

/-- One node of the directory tree: a file leaf (`path`, `name`,
`url`, `sha`), a directory with its `children` object (association list in
insertion order), or the error marker recorded for a failed sub-directory
fetch. -/
inductive DirNode where
  | file (path : String) (name : String) (url : Option String) (sha : String)
  | dir (path : String) (children : List (String × DirNode))
  | errDir (path : String)

/-- Mapping of a non-array response body with a `message` field inside the
`try` block of `buildDirectoryTree`. -/
def msgObjError (path m : String) : JsError :=
  if jsIncludes m "rate limit exceeded" then
    { message := "GitHub API rate limit exceeded. " ++ m ++
        " Consider setting GITHUB_PERSONAL_ACCESS_TOKEN environment " ++
        "variable for higher rate limits." }
  else if jsIncludes m "Not Found" then
    { message := "Path not found: " ++ path ++
        ". The path may not exist in the repository." }
  else { message := "GitHub API error: " ++ m }

/-- The `catch` block of `buildDirectoryTree`: errors whose message already
mentions a rate limit or a GitHub API error are rethrown unchanged; errors
carrying an HTTP response are mapped by status; everything else is rethrown. -/
def bdtCatch (path : String) (e : JsError) : JsError :=
  if jsIncludes e.message "rate limit" || jsIncludes e.message "GitHub API error" then
    e
  else
    match e.response with
    | some r =>
        let status := r.status
        let message := jsOrStrOpt r.message "Unknown error"
        if status = 404 then
          { message := "Path not found: " ++ path ++
              ". The path may not exist in the repository." }
        else if status = 403 then
          if jsIncludes message "rate limit" then
            { message := "GitHub API rate limit exceeded: " ++ message ++
                " Consider setting GITHUB_PERSONAL_ACCESS_TOKEN environment " ++
                "variable for higher rate limits." }
          else { message := "Access forbidden: " ++ message }
        else if status = 401 then
          { message := "Authentication failed. Please check your " ++
              "GITHUB_PERSONAL_ACCESS_TOKEN if provided." }
        else
          { message := "GitHub API error (" ++ toString status ++ "): " ++
              message }
    | none => e

/-- The `children` object assembled by successive `children[item.name] = ...`
assignments. -/
def assembleChildren (l : List (String × DirNode)) : List (String × DirNode) :=
  l.foldl (fun acc p => insertAssoc acc p.1 p.2) []

/-- The loop of `buildDirectoryTree` over the listing entries, parameterised
by the recursive call `sub` (already applied to owner/repo/branch and fuel).
Returns the produced `(name, node)` assignments in processing order together
with the number of listing requests issued by recursion. -/
def bdtKidsG (sub : String → Except JsError DirNode × Nat) (path : String) :
    List Item → List (String × DirNode) × Nat
  | [] => ([], 0)
  | it :: rest =>
      match it.type with
      | .file =>
          let node := DirNode.file (path ++ "/" ++ it.name) it.name
            it.download_url it.sha
          let k := bdtKidsG sub path rest
          ((it.name, node) :: k.1, k.2)
      | .dir =>
          if jsSplitSlashLen path < 8 then
            let childPath := path ++ "/" ++ it.name
            let s := sub childPath
            let node :=
              match s.1 with
              | .ok t => t
              | .error _ => DirNode.errDir childPath
            let k := bdtKidsG sub path rest
            ((it.name, node) :: k.1, s.2 + k.2)
          else bdtKidsG sub path rest
      | .other => bdtKidsG sub path rest

/-- Marker for fuel exhaustion.  Unreachable from `buildDirectoryTree`
(see `buildDirectoryTreeFuel_stable`). -/
def fuelExhaustedError : JsError :=
  { message := "recursion fuel exhausted" }

/-- Model of `buildDirectoryTree(owner, repo, path, branch)` on a fuel budget,
returning the tree (or thrown error) and the number of listing requests
issued. -/
def buildDirectoryTreeFuel (host : Host) : Nat → String →
    Except JsError DirNode × Nat
  | 0, _ => (.error fuelExhaustedError, 0)
  | f + 1, path =>
      match host.listing path with
      | .error e => (.error (bdtCatch path e), 1)
      | .ok .falsy =>
          (.error (bdtCatch path
            { message := "No data received from GitHub API" }), 1)
      | .ok (.msgObj m) => (.error (bdtCatch path (msgObjError path m)), 1)
      | .ok (.single it) =>
          if it.type = .file then
            (.ok (.file path it.name it.download_url it.sha), 1)
          else
            (.error (bdtCatch path
              { message := "Unexpected response type from GitHub API" }), 1)
      | .ok (.arr items) =>
          let k := bdtKidsG (fun p => buildDirectoryTreeFuel host f p) path items
          (.ok (.dir path (assembleChildren k.1)), k.2 + 1)

/-- Model of `buildDirectoryTree(owner, repo, path, branch)`: the fuel `9` always
suffices (every path has at least one segment and recursion requires fewer
than `8` segments, gaining at least one per level). -/
def buildDirectoryTree (host : Host) (path : String) :
    Except JsError DirNode × Nat :=
  buildDirectoryTreeFuel host 9 path

mutual

/-- Depth of a directory tree (a leaf has depth 1). -/
def DirNode.depth : DirNode → Nat
  | .file _ _ _ _ => 1
  | .errDir _ => 1
  | .dir _ cs => 1 + depthKids cs

/-- Maximum depth over the children of a directory node. -/
def depthKids : List (String × DirNode) → Nat
  | [] => 0
  | (_, c) :: rest => max c.depth (depthKids rest)

end

/-- Explicit bound on the number of listing requests for branching factor
`b` and remaining depth budget `k`. -/
def callBound (b : Nat) : Nat → Nat
  | 0 => 1
  | k + 1 => 1 + b * callBound b k

/-- Model of `getBasicSvelteStructure()`: the static placeholder tree (its purely
presentational `note`/`description` strings are not part of the node model). -/
def getBasicSvelteStructure : DirNode :=
  .dir DOCS_BASE_PATH
    [("ui", .dir (DOCS_BASE_PATH ++ "/ui") []),
     ("examples", .dir (DOCS_BASE_PATH ++ "/examples") []),
     ("blocks", .dir (DOCS_BASE_PATH ++ "/blocks") []),
     ("hooks", .dir (DOCS_BASE_PATH ++ "/hooks") []),
     ("lib", .dir (DOCS_BASE_PATH ++ "/lib") [])]

/-- Model of `buildDirectoryTreeWithFallback(owner, repo, path, branch)`: on an error
whose message mentions a rate limit, and only when the requested path is
exactly `DOCS_BASE_PATH`, the static placeholder is returned; every other
error propagates. -/
def buildDirectoryTreeWithFallback (host : Host) (path : String) :
    Except JsError DirNode :=
  match (buildDirectoryTree host path).1 with
  | .ok t => .ok t
  | .error e =>
      if jsIncludes e.message "rate limit" && path == DOCS_BASE_PATH then
        .ok getBasicSvelteStructure
      else .error e

/-- Model of `handleGetDirectoryStructure({path, owner, repo, branch})`
(`src/tools/repository/get-directory-structure.ts`): optional arguments
default via `||`; the default path is `REGISTRY_UI_PATH`.  The `owner`,
`repo` and `branch` arguments select the remote repository and are absorbed
into `Host`.  The exported `axios.buildDirectoryTree` is the alias of
`buildDirectoryTreeWithFallback`.  Failures are rethrown wrapped in a
`Failed to get directory structure:` message. -/
def handleGetDirectoryStructure (host : Host)
    (path _owner _repo _branch : Option String) : Except JsError DirNode :=
  let effPath := jsOrStrOpt path REGISTRY_UI_PATH
  match buildDirectoryTreeWithFallback host effPath with
  | .ok t => .ok t
  | .error e =>
      .error { message := "Failed to get directory structure: " ++ e.message }

/-! ## Lemmas about the circuit breaker -/

/-- The `||` defaulting always yields a positive value when the default is
positive. -/
lemma jsOrNat_pos (v : Option Nat) (d : Nat) (hd : 0 < d) : 0 < jsOrNat v d := by
  cases v with
  | none => exact hd
  | some n => cases n with
    | zero => exact hd
    | succ m => simp [jsOrNat]

/-- A failing call on a closed breaker that has not yet reached its threshold
keeps it closed and increments the failure counter. -/
lemma executeOutcome_closed_fail_stay (cb : CircuitBreaker) (now : Nat)
    (h : cb.state = .CLOSED)
    (hlt : cb.failures + 1 < cb.config.failureThreshold) :
    (cb.executeOutcome now false).1 =
      { cb with failures := cb.failures + 1, lastFailureTime := now } := by
  simp [CircuitBreaker.executeOutcome, CircuitBreaker.execute,
    CircuitBreaker.isOpen, CircuitBreaker.onFailure, h]
  omega

/-- A failing call on a closed breaker that reaches its threshold opens it. -/
lemma executeOutcome_closed_fail_open (cb : CircuitBreaker) (now : Nat)
    (h : cb.state = .CLOSED)
    (hge : cb.config.failureThreshold ≤ cb.failures + 1) :
    (cb.executeOutcome now false).1 =
      { cb with state := .OPEN, failures := cb.failures + 1,
                lastFailureTime := now } := by
  simp [CircuitBreaker.executeOutcome, CircuitBreaker.execute,
    CircuitBreaker.isOpen, CircuitBreaker.onFailure, h]
  omega

/-- Consecutive failures on a closed breaker open it exactly when the counter
reaches the threshold. -/
lemma failSeq_opens : ∀ (times : List Nat) (cb : CircuitBreaker),
    cb.state = .CLOSED →
    cb.failures + times.length = cb.config.failureThreshold →
    times ≠ [] → (failSeq cb times).state = .OPEN := by
  intro times
  induction times with
  | nil => intro cb _ _ hne; exact absurd rfl hne
  | cons t rest ih =>
      intro cb hst hcount _
      cases rest with
      | nil =>
          have hstep := executeOutcome_closed_fail_open cb t hst (by
            simp only [List.length_cons, List.length_nil] at hcount; omega)
          simp [failSeq, hstep]
      | cons t2 rest2 =>
          have hlt : cb.failures + 1 < cb.config.failureThreshold := by
            simp only [List.length_cons] at hcount; omega
          have hstep := executeOutcome_closed_fail_stay cb t hst hlt
          have := ih { cb with failures := cb.failures + 1,
                               lastFailureTime := t }
            (by simp [hst]) (by simp only [List.length_cons] at hcount ⊢; omega)
            (by simp)
          simpa [failSeq, hstep] using this

/-- Consecutive successes on a half-open breaker close it exactly when the
success counter reaches the threshold. -/
lemma succSeq_closes : ∀ (times : List Nat) (cb : CircuitBreaker),
    cb.state = .HALF_OPEN →
    cb.successes + times.length = cb.config.successThreshold →
    times ≠ [] → (succSeq cb times).state = .CLOSED := by
  intro times
  induction times with
  | nil => intro cb _ _ hne; exact absurd rfl hne
  | cons t rest ih =>
      intro cb hst hcount _
      cases rest with
      | nil =>
          have hge : cb.config.successThreshold ≤ cb.successes + 1 := by
            simp only [List.length_cons, List.length_nil] at hcount; omega
          simp [succSeq, CircuitBreaker.executeOutcome, CircuitBreaker.execute,
            CircuitBreaker.isOpen, CircuitBreaker.onSuccess, hst, hge]
      | cons t2 rest2 =>
          have hlt : cb.successes + 1 < cb.config.successThreshold := by
            simp only [List.length_cons] at hcount; omega
          have hstep : (cb.executeOutcome t true).1 =
              { cb with failures := 0, successes := cb.successes + 1 } := by
            simp [CircuitBreaker.executeOutcome, CircuitBreaker.execute,
              CircuitBreaker.isOpen, CircuitBreaker.onSuccess, hst]
            omega
          have := ih { cb with failures := 0, successes := cb.successes + 1 }
            (by simp [hst]) (by simp only [List.length_cons] at hcount ⊢; omega)
            (by simp)
          simpa [succSeq, hstep] using this

/-! ## Claim C3 -/

/-- C3: after `failureThreshold` consecutive failures a breaker built by the
constructor is `Open`; while `Open` and strictly before `timeout`
milliseconds have elapsed since the last failure, every call fails with the
`ServiceUnavailable` error without invoking the wrapped function and leaves
the breaker unchanged (so the state never leaves `Open` early); once
`now - lastFailureTime >= timeout`, the next call's `isOpen` check
transitions the breaker to `HalfOpen` with the success counter reset. -/
theorem circuitBreaker_open_behavior :
    (∀ (pc : PartialCircuitBreakerConfig) (times : List Nat),
        times.length = (resolveConfig pc).failureThreshold →
        (failSeq (mkCircuitBreaker pc) times).state = .OPEN)
    ∧ (∀ (cb : CircuitBreaker) (now : Nat),
        cb.state = .OPEN → now - cb.lastFailureTime < cb.config.timeout →
        ∀ {α : Type} (fn : CircuitBreaker → CircuitBreaker × Except JsError α),
          cb.execute now fn = (cb, .error serviceUnavailableError))
    ∧ (∀ (cb : CircuitBreaker) (now : Nat),
        cb.state = .OPEN → cb.config.timeout ≤ now - cb.lastFailureTime →
        cb.isOpen now = ({ cb with state := .HALF_OPEN, successes := 0 }, false)) := by
  refine ⟨?_, ?_, ?_⟩
  · intro pc times hlen
    have hpos : 0 < (resolveConfig pc).failureThreshold :=
      jsOrNat_pos _ _ (by omega)
    refine failSeq_opens times (mkCircuitBreaker pc) rfl ?_ ?_
    · simpa [mkCircuitBreaker] using hlen
    · intro hnil
      rw [hnil] at hlen
      simp at hlen
      omega
  · intro cb now hst hlt α fn
    have hnot : ¬ cb.config.timeout ≤ now - cb.lastFailureTime := by omega
    simp [CircuitBreaker.execute, CircuitBreaker.isOpen, hst, hnot]
  · intro cb now hst hge
    simp [CircuitBreaker.isOpen, hst, hge]

/-- Witness for C3 at concrete inputs. -/
theorem circuitBreaker_open_behavior_witness :
    (failSeq (mkCircuitBreaker { failureThreshold := some 2 }) [10, 20]).state
        = .OPEN
    ∧ (CircuitBreaker.execute
        { state := .OPEN, failures := 2, successes := 0, lastFailureTime := 100
          config := { failureThreshold := 2, timeout := 50, successThreshold := 2 } }
        120 (fun c => (c, .ok ())) =
        ({ state := .OPEN, failures := 2, successes := 0, lastFailureTime := 100
           config := { failureThreshold := 2, timeout := 50, successThreshold := 2 } },
         .error serviceUnavailableError))
    ∧ (CircuitBreaker.isOpen
        { state := .OPEN, failures := 2, successes := 0, lastFailureTime := 100
          config := { failureThreshold := 2, timeout := 50, successThreshold := 2 } }
        160 =
        ({ state := .HALF_OPEN, failures := 2, successes := 0, lastFailureTime := 100
           config := { failureThreshold := 2, timeout := 50, successThreshold := 2 } },
         false)) :=
  ⟨circuitBreaker_open_behavior.1 _ [10, 20] (by decide),
   circuitBreaker_open_behavior.2.1 _ 120 (by decide) (by decide) _,
   circuitBreaker_open_behavior.2.2 _ 160 (by decide) (by decide)⟩

/-! ## Claim C4 -/

/-- C4: in the `HalfOpen` state calls pass through (the `isOpen` check is
false and mutates nothing); a success below the threshold increments the
success counter and stays `HalfOpen`; reaching `successThreshold` consecutive
successes closes the breaker; any single failure sends it straight back to
`Open` with the success counter reset. -/
theorem circuitBreaker_halfOpen_behavior :
    ∀ (cb : CircuitBreaker) (now : Nat), cb.state = .HALF_OPEN →
      (cb.isOpen now = (cb, false))
      ∧ (cb.successes + 1 < cb.config.successThreshold →
          (cb.executeOutcome now true).1 =
            { cb with failures := 0, successes := cb.successes + 1 })
      ∧ (cb.config.successThreshold ≤ cb.successes + 1 →
          (cb.executeOutcome now true).1 =
            { cb with state := .CLOSED, failures := 0, successes := 0 })
      ∧ (cb.successes = 0 → 0 < cb.config.successThreshold →
          ∀ times : List Nat, times.length = cb.config.successThreshold →
            (succSeq cb times).state = .CLOSED)
      ∧ ((cb.executeOutcome now false).1 =
          { cb with state := .OPEN, successes := 0,
                    failures := cb.failures + 1, lastFailureTime := now }) := by
  intro cb now hst
  refine ⟨?_, ?_, ?_, ?_, ?_⟩
  · simp [CircuitBreaker.isOpen, hst]
  · intro hlt
    simp [CircuitBreaker.executeOutcome, CircuitBreaker.execute,
      CircuitBreaker.isOpen, CircuitBreaker.onSuccess, hst]
    omega
  · intro hge
    simp [CircuitBreaker.executeOutcome, CircuitBreaker.execute,
      CircuitBreaker.isOpen, CircuitBreaker.onSuccess, hst]
    omega
  · intro hz hpos times hlen
    refine succSeq_closes times cb hst (by omega) ?_
    intro hnil
    rw [hnil] at hlen
    simp at hlen
    omega
  · simp [CircuitBreaker.executeOutcome, CircuitBreaker.execute,
      CircuitBreaker.isOpen, CircuitBreaker.onFailure, hst]

/-- Witness for C4 at a concrete half-open breaker. -/
theorem circuitBreaker_halfOpen_behavior_witness :
    ((CircuitBreaker.executeOutcome
        { state := .HALF_OPEN, failures := 1, successes := 0, lastFailureTime := 7
          config := { failureThreshold := 5, timeout := 60000, successThreshold := 2 } }
        9 true).1 =
      { state := .HALF_OPEN, failures := 0, successes := 1, lastFailureTime := 7
        config := { failureThreshold := 5, timeout := 60000, successThreshold := 2 } })
    ∧ ((succSeq
        { state := .HALF_OPEN, failures := 1, successes := 0, lastFailureTime := 7
          config := { failureThreshold := 5, timeout := 60000, successThreshold := 2 } }
        [9, 11]).state = .CLOSED)
    ∧ ((CircuitBreaker.executeOutcome
        { state := .HALF_OPEN, failures := 1, successes := 0, lastFailureTime := 7
          config := { failureThreshold := 5, timeout := 60000, successThreshold := 2 } }
        9 false).1 =
      { state := .OPEN, failures := 2, successes := 0, lastFailureTime := 9
        config := { failureThreshold := 5, timeout := 60000, successThreshold := 2 } }) :=
  ⟨(circuitBreaker_halfOpen_behavior _ 9 (by decide)).2.1 (by decide),
   (circuitBreaker_halfOpen_behavior _ 9 (by decide)).2.2.2.1 (by decide)
     (by decide) [9, 11] (by decide),
   (circuitBreaker_halfOpen_behavior _ 9 (by decide)).2.2.2.2⟩

/-! ## Claim C10 -/

/-- The fixed failing `call_tool` request used in the statements below. -/
lemma callTool_valid_params :
    validateAndSanitizeParams "call_tool"
      (.obj [("name", .str "get_component"),
             ("arguments", .obj [("componentName", .str "button")])]) =
    .ok (.obj [("name", .str "get_component"),
               ("arguments", .obj [("componentName", .str "button")])]) := rfl

/-- C10: every `call_tool` invocation runs the outer `handleRequest` execute
and the inner tool-dispatch execute on the same shared `external` breaker, so
one failing tool call adds two to its failure counter; with the default
`failureThreshold` of 5 of `circuitBreakers.external`, the circuit is still
closed after 2 consecutive failing tool calls but open after 3 (not 5). -/
theorem callTool_double_breaker :
    (∀ (cb : CircuitBreaker) (now : Nat), cb.state = .CLOSED →
        (handleCallTool cb now
          (.obj [("name", .str "get_component"),
                 ("arguments", .obj [("componentName", .str "button")])])
          (fun _ _ => false)).1.failures = cb.failures + 2)
    ∧ (∀ t1 t2 t3 : Nat,
        (failToolSeq circuitBreakersExternal [t1, t2]).state = .CLOSED
        ∧ (failToolSeq circuitBreakersExternal [t1, t2, t3]).state = .OPEN) := by
  constructor
  · intro cb now hst
    simp only [handleCallTool, callTool_valid_params]
    simp [CircuitBreaker.execute, CircuitBreaker.isOpen, hst,
      JValue.getField, toolNames, jsOrEmptyObj, CircuitBreaker.onFailure]
    split <;> simp_all [apply_ite CircuitBreaker.failures]
  · intro t1 t2 t3
    constructor
    · simp only [failToolSeq, List.foldl, handleCallTool, callTool_valid_params]
      simp [CircuitBreaker.execute, CircuitBreaker.isOpen,
        JValue.getField, toolNames, jsOrEmptyObj, CircuitBreaker.onFailure,
        circuitBreakersExternal, mkCircuitBreaker, resolveConfig, jsOrNat]
    · simp only [failToolSeq, List.foldl, handleCallTool, callTool_valid_params]
      simp [CircuitBreaker.execute, CircuitBreaker.isOpen,
        JValue.getField, toolNames, jsOrEmptyObj, CircuitBreaker.onFailure,
        circuitBreakersExternal, mkCircuitBreaker, resolveConfig, jsOrNat]

/-- Witness for C10 at a concrete breaker and times. -/
theorem callTool_double_breaker_witness :
    (handleCallTool circuitBreakersExternal 0
        (.obj [("name", .str "get_component"),
               ("arguments", .obj [("componentName", .str "button")])])
        (fun _ _ => false)).1.failures = circuitBreakersExternal.failures + 2
    ∧ (failToolSeq circuitBreakersExternal [0, 1]).state = .CLOSED
    ∧ (failToolSeq circuitBreakersExternal [0, 1, 2]).state = .OPEN :=
  ⟨callTool_double_breaker.1 circuitBreakersExternal 0 (by decide),
   (callTool_double_breaker.2 0 1 2).1,
   (callTool_double_breaker.2 0 1 2).2⟩

/-! ## Claim C2 -/

/-- C2 (behavior of the code at the failing input): a `call_tool` request for
`get_component` whose `componentName` argument is the empty string passes
validation — only the `toolRequest` envelope schema is consulted for method
`call_tool`, never `validationSchemas.componentName` — and the dispatcher
invokes the `get_component` handler with the empty name, even though the
registered `componentName` schema itself would reject it; `getComponentSource`
with the empty name always issues a listing request to the Remote Client
(first requested path `REGISTRY_UI_PATH ++ "/"`). -/
theorem callTool_emptyComponentName_accepted :
    validateAndSanitizeParams "call_tool"
      (.obj [("name", .str "get_component"),
             ("arguments", .obj [("componentName", .str "")])]) =
      .ok (.obj [("name", .str "get_component"),
                 ("arguments", .obj [("componentName", .str "")])])
    ∧ (handleCallTool circuitBreakersExternal 0
        (.obj [("name", .str "get_component"),
               ("arguments", .obj [("componentName", .str "")])])
        (fun _ _ => true)).2 =
      .ok ("get_component", .obj [("componentName", .str "")])
    ∧ exceptIsOk (validateRequest schemaComponentName
        (.obj [("componentName", .str "")])) = false
    ∧ ∀ host : Host,
        (getComponentSource host "").2.head? = some (REGISTRY_UI_PATH ++ "/") := by
  refine ⟨rfl, rfl, rfl, ?_⟩
  intro host
  have hp : REGISTRY_UI_PATH ++ "/" ++ jsToLower "" = REGISTRY_UI_PATH ++ "/" := by
    decide
  unfold getComponentSource
  rw [hp]
  cases h : host.listing (REGISTRY_UI_PATH ++ "/") with
  | error e => simp [h]
  | ok ld =>
      cases ld with
      | arr items =>
          rcases hgl : gcsLoop host (REGISTRY_UI_PATH ++ "/")
            items [] [] [] [] with ⟨res, tr⟩
          cases res <;> simp [h, hgl]
      | single it => simp [h]
      | msgObj m => simp [h]
      | falsy => simp [h]

/-! ## Claim C1 -/

/-- C1 counterexample: a listing request that fails with a `RateLimited`
error (HTTP 403 carrying a rate-limit message) makes `getAvailableComponents`
fail — it does not log the fallback warning and does not return the fallback
list. -/
theorem listComponents_rateLimited_fails :
    exceptIsOk (getAvailableComponents (.error
      { message := "Request failed with status code 403",
        response := some { status := 403, message := some "API rate limit exceeded for 1.2.3.4." },
        code := none })).1 = false
    ∧ (getAvailableComponents (.error
      { message := "Request failed with status code 403",
        response := some { status := 403, message := some "API rate limit exceeded for 1.2.3.4." },
        code := none })).2 = false := by
  decide

/-- C1 amended: `getAvailableComponents` logs the fallback warning and
returns the fixed built-in fallback list exactly when the listing failure
carries no HTTP response and none of the recognised transport error codes;
a failure carrying an HTTP response — in particular a rate-limited 403 — or a
recognised transport code makes the call fail with a descriptive error. -/
theorem listComponents_fallback_characterization :
    ∀ e : JsError,
      (e.response = none → isNetErrorCode e.code = false →
        getAvailableComponents (.error e) = (.ok getFallbackComponents, true))
      ∧ (∀ r, e.response = some r →
          exceptIsOk (getAvailableComponents (.error e)).1 = false
          ∧ (getAvailableComponents (.error e)).2 = false)
      ∧ (isNetErrorCode e.code = true → e.response = none →
          exceptIsOk (getAvailableComponents (.error e)).1 = false
          ∧ (getAvailableComponents (.error e)).2 = false) := by
  intro e
  refine ⟨?_, ?_, ?_⟩
  · intro h1 h2
    simp [getAvailableComponents, gacTry, gacCatch, h1, h2]
  · intro r hr
    simp only [getAvailableComponents, gacTry, gacCatch, hr]
    split_ifs <;> simp [exceptIsOk]
  · intro h2 h1
    simp [getAvailableComponents, gacTry, gacCatch, h1, h2, exceptIsOk]

/-- Witness for the amended C1 at concrete failures. -/
theorem listComponents_fallback_characterization_witness :
    getAvailableComponents (.error { message := "socket hang up" }) =
      (.ok getFallbackComponents, true)
    ∧ exceptIsOk (getAvailableComponents (.error
        { message := "Request failed with status code 404",
          response := some { status := 404 } })).1 = false
    ∧ exceptIsOk (getAvailableComponents (.error
        { message := "connect ECONNREFUSED",
          code := some "ECONNREFUSED" })).1 = false :=
  ⟨(listComponents_fallback_characterization _).1 rfl (by decide),
   ((listComponents_fallback_characterization _).2.1 _ rfl).1,
   ((listComponents_fallback_characterization _).2.2 (by decide) rfl).1⟩

/-! ## Claim C5 -/

/-- C5 counterexample: when the directory listing resolves with an empty
array, `getComponentSource` does not fail with `NotFound` — it returns a
successful bundle containing zero files. -/
theorem getComponentSource_emptyListing_succeeds :
    (getComponentSource
      { listing := fun _ => .ok (.arr []), raw := fun _ => .ok "" }
      "button").1 =
    .ok { name := "button", type := "svelte-component", files := []
          structureEntries := [], totalFiles := 0, dependencies := []
          imports := [] } := by
  rfl

/-- C5 amended: `getComponentSource` fails with the `NotFound` error when the
listing request is rejected with HTTP 404, or resolves with absent (falsy)
data; when the listing resolves with an empty array it instead succeeds with
a bundle containing zero files. -/
theorem getComponentSource_notFound_characterization :
    ∀ (host : Host) (name : String) (e : JsError) (r : HttpErrorResponse),
      (host.listing (REGISTRY_UI_PATH ++ "/" ++ jsToLower name) = .error e →
        e.response = some r → r.status = 404 →
        (getComponentSource host name).1 = .error
          { message := "Component \"" ++ name ++
              "\" not found in shadcn-svelte registry" })
      ∧ (host.listing (REGISTRY_UI_PATH ++ "/" ++ jsToLower name) = .ok .falsy →
        (getComponentSource host name).1 = .error
          { message := "Component \"" ++ name ++ "\" not found" })
      ∧ (host.listing (REGISTRY_UI_PATH ++ "/" ++ jsToLower name) =
            .ok (.arr []) →
        (getComponentSource host name).1 = .ok
          { name := name, type := "svelte-component", files := []
            structureEntries := [], totalFiles := 0, dependencies := []
            imports := [] }) := by
  intro host name e r
  refine ⟨?_, ?_, ?_⟩
  · intro hl hresp hstatus
    simp [getComponentSource, hl, gcsCatch, hresp, hstatus]
  · intro hl
    simp [getComponentSource, hl, gcsCatch]
  · intro hl
    simp [getComponentSource, hl, gcsLoop]

/-- Witness for the amended C5 at concrete hosts. -/
theorem getComponentSource_notFound_characterization_witness :
    (getComponentSource
      { listing := fun _ => .error
          { message := "Request failed with status code 404"
            response := some { status := 404 } }
        raw := fun _ => .ok "" } "button").1 =
      .error { message := "Component \"button\" not found in shadcn-svelte registry" }
    ∧ (getComponentSource
        { listing := fun _ => .ok .falsy, raw := fun _ => .ok "" }
        "button").1 =
      .error { message := "Component \"button\" not found" }
    ∧ (getComponentSource
        { listing := fun _ => .ok (.arr []), raw := fun _ => .ok "" }
        "card").1 =
      .ok { name := "card", type := "svelte-component", files := []
            structureEntries := [], totalFiles := 0, dependencies := []
            imports := [] } :=
  ⟨(getComponentSource_notFound_characterization _ "button" _
      { status := 404 }).1 rfl rfl rfl,
   (getComponentSource_notFound_characterization
      { listing := fun _ => .ok .falsy, raw := fun _ => .ok "" } "button"
      { message := "" } { status := 404 }).2.1 rfl,
   (getComponentSource_notFound_characterization
      { listing := fun _ => .ok (.arr []), raw := fun _ => .ok "" } "card"
      { message := "" } { status := 404 }).2.2 rfl⟩

/-! ## Lemmas about deduplication and set accumulation -/

/-- Membership in the deduplicated list: exactly the elements of the input
not already seen. -/
lemma mem_dedupFirstAux : ∀ (l seen : List String) (x : String),
    x ∈ dedupFirstAux seen l ↔ x ∈ l ∧ x ∉ seen := by
  intro l
  induction l with
  | nil => intro seen x; simp [dedupFirstAux]
  | cons y rest ih =>
      intro seen x
      by_cases hy : y ∈ seen
      · rw [show dedupFirstAux seen (y :: rest) = dedupFirstAux seen rest from
          by simp [dedupFirstAux, hy]]
        rw [ih]
        constructor
        · rintro ⟨h1, h2⟩
          exact ⟨List.mem_cons_of_mem _ h1, h2⟩
        · rintro ⟨h1, h2⟩
          rcases List.mem_cons.mp h1 with heq | hm
          · subst heq; exact absurd hy h2
          · exact ⟨hm, h2⟩
      · rw [show dedupFirstAux seen (y :: rest) =
            y :: dedupFirstAux (y :: seen) rest from by simp [dedupFirstAux, hy]]
        constructor
        · intro hx
          rcases List.mem_cons.mp hx with heq | hm
          · subst heq; exact ⟨List.mem_cons_self _ _, hy⟩
          · rcases (ih (y :: seen) x).mp hm with ⟨h1, h2⟩
            simp only [List.mem_cons, not_or] at h2
            exact ⟨List.mem_cons_of_mem _ h1, h2.2⟩
        · rintro ⟨h1, h2⟩
          by_cases hxy : x = y
          · exact hxy ▸ List.mem_cons_self _ _
          · rcases List.mem_cons.mp h1 with heq | hm
            · exact absurd heq hxy
            · refine List.mem_cons_of_mem _ ((ih (y :: seen) x).mpr ⟨hm, ?_⟩)
              simp only [List.mem_cons, not_or]
              exact ⟨hxy, h2⟩

/-- The deduplicated list has no duplicates. -/
lemma nodup_dedupFirstAux : ∀ (l seen : List String),
    (dedupFirstAux seen l).Nodup := by
  intro l
  induction l with
  | nil => intro seen; simp [dedupFirstAux]
  | cons y rest ih =>
      intro seen
      by_cases hy : y ∈ seen
      · rw [show dedupFirstAux seen (y :: rest) = dedupFirstAux seen rest from
          by simp [dedupFirstAux, hy]]
        exact ih seen
      · rw [show dedupFirstAux seen (y :: rest) =
            y :: dedupFirstAux (y :: seen) rest from by simp [dedupFirstAux, hy]]
        refine List.nodup_cons.mpr ⟨?_, ih (y :: seen)⟩
        intro hmem
        rcases (mem_dedupFirstAux rest (y :: seen) y).mp hmem with ⟨_, hs⟩
        exact hs (List.mem_cons_self _ _)

/-- The deduplicated list is a sublist of the input (first-seen order). -/
lemma sublist_dedupFirstAux : ∀ (l seen : List String),
    (dedupFirstAux seen l).Sublist l := by
  intro l
  induction l with
  | nil => intro seen; simp [dedupFirstAux]
  | cons y rest ih =>
      intro seen
      by_cases hy : y ∈ seen
      · rw [show dedupFirstAux seen (y :: rest) = dedupFirstAux seen rest from
          by simp [dedupFirstAux, hy]]
        exact (ih seen).cons y
      · rw [show dedupFirstAux seen (y :: rest) =
            y :: dedupFirstAux (y :: seen) rest from by simp [dedupFirstAux, hy]]
        exact (ih (y :: seen)).cons₂ y

/-- Elements of a `Set.add` accumulation come from the accumulator or the
added list. -/
lemma mem_foldl_setAdd : ∀ (added acc : List String) (x : String),
    x ∈ added.foldl setAdd acc → x ∈ acc ∨ x ∈ added := by
  intro added
  induction added with
  | nil => intro acc x hx; exact Or.inl hx
  | cons y rest ih =>
      intro acc x hx
      rcases ih (setAdd acc y) x hx with h | h
      · by_cases hxy : x = y
        · exact Or.inr (hxy ▸ List.mem_cons_self _ _)
        · left
          simp only [setAdd] at h
          split at h
          · exact h
          · rcases List.mem_append.mp h with h2 | h2
            · exact h2
            · simp at h2
              exact absurd h2 hxy
      · exact Or.inr (List.mem_cons_of_mem _ h)

/-! ## Lemmas about the extractor -/

/-- Every dependency returned by `extractDependencies` survives the
`startsWith` filter. -/
lemma extractDependencies_allowed (code : String) :
    ∀ d ∈ extractDependencies code, depAllowed d = true := by
  intro d hd
  have hm := (mem_dedupFirstAux (collectedDeps code) [] d).mp hd
  exact (List.mem_filter.mp hm.1).2

/-- The dependency set accumulated by the file loop of `getComponentSource`
only ever contains filter-surviving specifiers. -/
lemma gcsLoop_deps_allowed :
    ∀ (host : Host) (cp : String) (items : List Item)
      (files : List (String × FileEntry)) (structs : List StructEntry)
      (deps imps : List String)
      (out : List (String × FileEntry) × List StructEntry ×
        List String × List String) (tr : List String),
      gcsLoop host cp items files structs deps imps = (.ok out, tr) →
      (∀ d ∈ deps, depAllowed d = true) →
      ∀ d ∈ out.2.2.1, depAllowed d = true := by
  intro host cp items
  induction items with
  | nil =>
      intro files structs deps imps out tr heq hinv d hd
      simp only [gcsLoop] at heq
      injection heq with h1 h2
      injection h1 with h1
      subst h1
      exact hinv d hd
  | cons it rest ih =>
      intro files structs deps imps out tr heq hinv d hd
      simp only [gcsLoop] at heq
      split at heq
      · split at heq
        · simp at heq
        · rename_i content hraw
          try dsimp only at heq
          rcases hpair : gcsLoop host cp rest
            (insertAssoc files it.name
              { path := it.name, content := content, size := content.length
                lines := jsSplitLinesLen content
                dependencies := extractDependencies content
                imports := extractImports content })
            (structs ++ [{ name := it.name, type := "file"
                           size := content.length
                           fileType := if jsEndsWith it.name ".svelte" then
                             "svelte" else "typescript" }])
            ((extractDependencies content).foldl setAdd deps)
            ((extractImports content).foldl setAdd imps) with ⟨res, tr2⟩
          rw [hpair] at heq
          try dsimp only at heq
          cases res with
          | error e => simp at heq
          | ok out2 =>
              injection heq with h1 h2
              injection h1 with h1
              subst h1
              refine ih _ _ _ _ _ tr2 hpair ?_ d hd
              intro d2 hd2
              rcases mem_foldl_setAdd _ _ _ hd2 with h | h
              · exact hinv d2 h
              · exact extractDependencies_allowed content d2 h
      · exact ih _ _ _ _ out tr heq hinv d hd

/-! ## Claim C8 -/

/-- C8: `extractDependencies` returns the specifiers collected by the
import/from scan with every specifier beginning with `./`, `../`, `$` or `/`
discarded, deduplicated preserving first-seen order (a duplicate-free sublist
of the filtered match list containing exactly its elements); consequently the
dependency set of every bundle returned by `getComponentSource` contains no
entry starting with `./`, `../`, `$` or `/`. -/
theorem extractDependencies_spec :
    (∀ code : String,
      (∀ d ∈ extractDependencies code,
        jsStartsWith d "./" = false ∧ jsStartsWith d "../" = false ∧
        jsStartsWith d "$" = false ∧ jsStartsWith d "/" = false)
      ∧ (extractDependencies code).Nodup
      ∧ (extractDependencies code).Sublist (collectedDeps code)
      ∧ (∀ d, d ∈ extractDependencies code ↔ d ∈ collectedDeps code))
    ∧ (∀ (host : Host) (name : String) (b : ComponentBundle),
        (getComponentSource host name).1 = .ok b →
        ∀ d ∈ b.dependencies,
          jsStartsWith d "./" = false ∧ jsStartsWith d "../" = false ∧
          jsStartsWith d "$" = false ∧ jsStartsWith d "/" = false) := by
  have hallow : ∀ d, depAllowed d = true →
      jsStartsWith d "./" = false ∧ jsStartsWith d "../" = false ∧
      jsStartsWith d "$" = false ∧ jsStartsWith d "/" = false := by
    intro d h
    simp only [depAllowed, Bool.and_eq_true, Bool.not_eq_true'] at h
    exact ⟨h.1.1.1, h.1.1.2, h.1.2, h.2⟩
  constructor
  · intro code
    refine ⟨?_, nodup_dedupFirstAux _ _, sublist_dedupFirstAux _ _, ?_⟩
    · intro d hd
      exact hallow d (extractDependencies_allowed code d hd)
    · intro d
      rw [extractDependencies, dedupFirst, mem_dedupFirstAux]
      simp
  · intro host name b hok d hd
    unfold getComponentSource at hok
    cases hl : host.listing (REGISTRY_UI_PATH ++ "/" ++ jsToLower name) with
    | error e => simp [hl] at hok
    | ok ld =>
        cases ld with
        | falsy => simp [hl] at hok
        | single it =>
            simp only [hl] at hok
            injection hok with h1
            rw [← h1] at hd
            simp at hd
        | msgObj m =>
            simp only [hl] at hok
            injection hok with h1
            rw [← h1] at hd
            simp at hd
        | arr items =>
            simp only [hl] at hok
            rcases hloop : gcsLoop host
              (REGISTRY_UI_PATH ++ "/" ++ jsToLower name) items [] [] [] []
              with ⟨res, trace⟩
            rw [hloop] at hok
            cases res with
            | error e => simp at hok
            | ok acc =>
                simp only at hok
                injection hok with h1
                rw [← h1] at hd
                exact hallow d
                  (gcsLoop_deps_allowed _ _ _ _ _ _ _ acc trace hloop
                    (by intro d2 hd2; cases hd2) d hd)

/-- Witness for C8 at a concrete text and a concrete host. -/
theorem extractDependencies_spec_witness :
    extractDependencies "import z from \"zod\"\nimport a from \"./x\"" = ["zod"]
    ∧ (jsStartsWith "zod" "./" = false ∧ jsStartsWith "zod" "../" = false ∧
        jsStartsWith "zod" "$" = false ∧ jsStartsWith "zod" "/" = false)
    ∧ (extractDependencies
        "import z from \"zod\"\nimport a from \"./x\"").Nodup
    ∧ (getComponentSource
        { listing := fun _ => .ok (.arr [{ name := "button.svelte", type := .file }])
          raw := fun _ => .ok "import z from \"zod\"" } "button").1 =
      .ok { name := "button", type := "svelte-component"
            files := [("button.svelte",
              { path := "button.svelte", content := "import z from \"zod\""
                size := 19, lines := 1, dependencies := ["zod"]
                imports := ["z"] })]
            structureEntries := [{ name := "button.svelte", type := "file"
                                   size := 19, fileType := "svelte" }]
            totalFiles := 1, dependencies := ["zod"], imports := ["z"] } :=
  ⟨by decide,
   (extractDependencies_spec.1 "import z from \"zod\"\nimport a from \"./x\"").1
     "zod" (by decide),
   (extractDependencies_spec.1 "import z from \"zod\"\nimport a from \"./x\"").2.1,
   by decide⟩

/-! ## Order lemmas for the block sort -/

/-- Transitivity of the lexicographic order on character lists. -/
lemma charListLe_trans : ∀ a b c : List Char,
    charListLe a b = true → charListLe b c = true → charListLe a c = true := by
  intro a
  induction a with
  | nil => intro b c _ _; rfl
  | cons x as ih =>
      intro b c hab hbc
      cases b with
      | nil => simp [charListLe] at hab
      | cons y bs =>
          cases c with
          | nil => simp [charListLe] at hbc
          | cons z cs =>
              rcases lt_trichotomy x y with h1 | h1 | h1
              · rcases lt_trichotomy y z with h2 | h2 | h2
                · simp [charListLe, lt_trans h1 h2]
                · subst h2; simp [charListLe, h1]
                · simp [charListLe, asymm h2, h2] at hbc
              · subst h1
                simp only [charListLe, lt_irrefl, if_neg, ite_self] at hab
                rcases lt_trichotomy x z with h2 | h2 | h2
                · simp [charListLe, h2]
                · subst h2
                  simp only [charListLe, lt_irrefl, if_neg, ite_self] at hbc ⊢
                  try simp only [if_neg (lt_irrefl x)]
                  exact ih bs cs (by simpa using hab) (by simpa using hbc)
                · simp [charListLe, asymm h2, h2] at hbc
              · simp [charListLe, asymm h1, h1] at hab

/-- Totality of the lexicographic order on character lists. -/
lemma charListLe_total : ∀ a b : List Char,
    charListLe a b = true ∨ charListLe b a = true := by
  intro a
  induction a with
  | nil => intro b; left; rfl
  | cons x as ih =>
      intro b
      cases b with
      | nil => right; rfl
      | cons y bs =>
          rcases lt_trichotomy x y with h1 | h1 | h1
          · left; simp [charListLe, h1]
          · subst h1
            rcases ih bs with h | h
            · left
              simp only [charListLe, lt_irrefl, if_neg, ite_self]
              simpa using h
            · right
              simp only [charListLe, lt_irrefl, if_neg, ite_self]
              simpa using h
          · right; simp [charListLe, h1]

/-- Two character lists neither of which is lexicographically below the other
are equal. -/
lemma charListLt_conn : ∀ a b : List Char,
    charListLt a b = false → charListLt b a = false → a = b := by
  intro a
  induction a with
  | nil =>
      intro b h1 _
      cases b with
      | nil => rfl
      | cons y bs => simp [charListLt] at h1
  | cons x as ih =>
      intro b h1 h2
      cases b with
      | nil => simp [charListLt] at h2
      | cons y bs =>
          rcases lt_trichotomy x y with h | h | h
          · simp [charListLt, h] at h1
          · subst h
            simp only [charListLt, lt_irrefl, if_neg, ite_self] at h1 h2
            rw [ih bs (by simpa using h1) (by simpa using h2)]
          · simp [charListLt, h] at h2

/-- Transitivity of the strict lexicographic order on character lists. -/
lemma charListLt_trans : ∀ a b c : List Char,
    charListLt a b = true → charListLt b c = true → charListLt a c = true := by
  intro a
  induction a with
  | nil =>
      intro b c hab hbc
      cases b with
      | nil => simp [charListLt] at hab
      | cons y bs =>
          cases c with
          | nil => simp [charListLt] at hbc
          | cons z cs => rfl
  | cons x as ih =>
      intro b c hab hbc
      cases b with
      | nil => simp [charListLt] at hab
      | cons y bs =>
          cases c with
          | nil => simp [charListLt] at hbc
          | cons z cs =>
              rcases lt_trichotomy x y with h1 | h1 | h1
              · rcases lt_trichotomy y z with h2 | h2 | h2
                · simp [charListLt, lt_trans h1 h2]
                · subst h2; simp [charListLt, h1]
                · simp [charListLt, asymm h2, h2] at hbc
              · subst h1
                simp only [charListLt, lt_irrefl, if_neg, ite_self] at hab
                rcases lt_trichotomy x z with h2 | h2 | h2
                · simp [charListLt, h2]
                · subst h2
                  simp only [charListLt, lt_irrefl, if_neg, ite_self] at hbc ⊢
                  try simp only [if_neg (lt_irrefl x)]
                  exact ih bs cs (by simpa using hab) (by simpa using hbc)
                · simp [charListLt, asymm h2, h2] at hbc
              · simp [charListLt, asymm h1, h1] at hab

/-- Totality of the modelled locale comparison. -/
lemma jsLocaleLe_total (a b : String) :
    jsLocaleLe a b = true ∨ jsLocaleLe b a = true := by
  unfold jsLocaleLe
  cases h1 : charListLt (a.data.map Char.toLower) (b.data.map Char.toLower) with
  | true => left; simp [h1]
  | false =>
      cases h2 : charListLt (b.data.map Char.toLower) (a.data.map Char.toLower) with
      | true => right; simp [h1, h2]
      | false =>
          rcases charListLe_total a.data b.data with h | h
          · left; simp [h1, h2, h]
          · right; simp [h1, h2, h]

/-- Transitivity of the modelled locale comparison. -/
lemma jsLocaleLe_trans (a b c : String) (hab : jsLocaleLe a b = true)
    (hbc : jsLocaleLe b c = true) : jsLocaleLe a c = true := by
  unfold jsLocaleLe at hab hbc ⊢
  cases h1 : charListLt (a.data.map Char.toLower) (b.data.map Char.toLower) with
  | true =>
      cases h2 : charListLt (b.data.map Char.toLower) (c.data.map Char.toLower) with
      | true => simp [charListLt_trans _ _ _ h1 h2]
      | false =>
          cases h3 : charListLt (c.data.map Char.toLower) (b.data.map Char.toLower) with
          | true => simp [h2, h3] at hbc
          | false =>
              rw [charListLt_conn _ _ h2 h3] at h1
              simp [h1]
  | false =>
      cases h4 : charListLt (b.data.map Char.toLower) (a.data.map Char.toLower) with
      | true => simp [h1, h4] at hab
      | false =>
          have heq := charListLt_conn _ _ h1 h4
          rw [heq]
          cases h2 : charListLt (b.data.map Char.toLower) (c.data.map Char.toLower) with
          | true => simp [h2]
          | false =>
              cases h3 : charListLt (c.data.map Char.toLower) (b.data.map Char.toLower) with
              | true => simp [h2, h3] at hbc
              | false =>
                  simp only [h1, h4, h2, h3, Bool.false_eq_true, if_neg,
                    ite_self] at hab hbc ⊢
                  simp only [if_neg (by simp : ¬False)] at hab hbc ⊢
                  exact charListLe_trans _ _ _ hab hbc

instance : IsTotal BlockInfo blockInfoLe :=
  ⟨fun a b => jsLocaleLe_total a.name b.name⟩

instance : IsTrans BlockInfo blockInfoLe :=
  ⟨fun a b c => jsLocaleLe_trans a.name b.name c.name⟩

/-! ## Characterisation of the block categorisation loop -/

/-- The loop body is exactly a push into the bucket selected by the
precedence classification. -/
lemma blocksStep_eq (b : BlocksRec) (it : Item) :
    blocksStep b it = pushCat b (categorize it.name) (mkBlockInfoCat it) := by
  unfold blocksStep pushCat mkBlockInfoCat descFor categorize
  split_ifs <;> rfl

/-- Reading a bucket after a push. -/
lemma catList_pushCat (b : BlocksRec) (c' c : BlockCategory) (x : BlockInfo) :
    catList (pushCat b c' x) c =
      if c' = c then catList b c ++ [x] else catList b c := by
  cases c' <;> cases c <;> simp [pushCat, catList]

/-- One loop step appends the entry to exactly the bucket selected by the
precedence classification. -/
lemma blocksStep_catList (b : BlocksRec) (it : Item) (c : BlockCategory) :
    catList (blocksStep b it) c =
      if categorize it.name = c then catList b c ++ [mkBlockInfoCat it]
      else catList b c := by
  rw [blocksStep_eq, catList_pushCat]

/-- The loop distributes the listing over the buckets as a filter by the
precedence classification, preserving listing order. -/
lemma blocksFold_catList : ∀ (items : List Item) (b : BlocksRec)
    (c : BlockCategory),
    catList (List.foldl blocksStep b items) c =
      catList b c ++
        ((items.filter (fun it => categorize it.name == c)).map mkBlockInfoCat) := by
  intro items
  induction items with
  | nil => intro b c; simp
  | cons it rest ih =>
      intro b c
      simp only [List.foldl_cons, ih, blocksStep_catList]
      by_cases h : categorize it.name = c
      · simp [h, List.filter_cons]
      · simp [h, List.filter_cons]

/-- Sorting the record sorts each bucket. -/
lemma catList_sortBlocksRec (r : BlocksRec) (c : BlockCategory) :
    catList (sortBlocksRec r) c = sortBlocks (catList r c) := by
  cases c <;> rfl

/-- The empty record has empty buckets. -/
lemma catList_empty (c : BlockCategory) : catList emptyBlocksRec c = [] := by
  cases c <;> rfl

/-! ## Claim C9 -/

/-- C9: `getAvailableBlocks` classifies each listing entry by name-substring
matching with the ordered precedence calendar, dashboard, login/signin,
sidebar, auth, chart/graph, else `other` (each bucket is the stable sort of
the filter of the listing by that classification), sorts entries within each
category by the name comparator, and: with no filter returns the full
categorised map with summary counts; with a filter naming a category returns
only that category; with a filter naming no category returns an empty result
listing the non-empty available categories. -/
theorem listBlocks_spec :
    (∀ (items : List Item) (c : BlockCategory),
        catList (sortBlocksRec (blocksFold items)) c =
          sortBlocks
            ((items.filter (fun it => categorize it.name == c)).map
              mkBlockInfoCat)
        ∧ List.Sorted blockInfoLe (catList (sortBlocksRec (blocksFold items)) c)
        ∧ (catList (sortBlocksRec (blocksFold items)) c).Perm
            ((items.filter (fun it => categorize it.name == c)).map
              mkBlockInfoCat))
    ∧ (∀ (items : List Item) (filt : String) (lst : List BlockInfo),
        recGet (sortBlocksRec (blocksFold items)) (jsToLower filt) = some lst →
        getAvailableBlocks (some filt) (.ok (.arr items)) =
          .ok (.filtered filt lst lst.length
            (jsCapitalize filt ++ " blocks available in shadcn-svelte")
            filteredUsage))
    ∧ (∀ (items : List Item) (filt : String),
        recGet (sortBlocksRec (blocksFold items)) (jsToLower filt) = none →
        getAvailableBlocks (some filt) (.ok (.arr items)) =
          .ok (.noMatch filt [] 0
            (nonEmptyCategories (sortBlocksRec (blocksFold items)))
            ("Category '" ++ filt ++ "' not found. Available categories: " ++
              String.intercalate ", "
                (nonEmptyCategories (sortBlocksRec (blocksFold items))))))
    ∧ (∀ items : List Item,
        getAvailableBlocks none (.ok (.arr items)) =
          .ok (.full (sortBlocksRec (blocksFold items))
            (totalBlocksCount (sortBlocksRec (blocksFold items)))
            (nonEmptyCategories (sortBlocksRec (blocksFold items)))
            (blocksSummary (sortBlocksRec (blocksFold items))) fullUsage
            (blocksExamples (sortBlocksRec (blocksFold items))))) := by
  have heq : ∀ (items : List Item) (c : BlockCategory),
      catList (sortBlocksRec (blocksFold items)) c =
        sortBlocks
          ((items.filter (fun it => categorize it.name == c)).map
            mkBlockInfoCat) := by
    intro items c
    rw [catList_sortBlocksRec, blocksFold, blocksFold_catList items
      emptyBlocksRec c, catList_empty]
    rfl
  refine ⟨?_, ?_, ?_, ?_⟩
  · intro items c
    refine ⟨heq items c, ?_, ?_⟩
    · rw [catList_sortBlocksRec]
      exact List.sorted_insertionSort blockInfoLe _
    · rw [heq items c]
      exact List.perm_insertionSort blockInfoLe _
  · intro items filt lst h
    simp [getAvailableBlocks, h]
  · intro items filt h
    simp [getAvailableBlocks, h]
  · intro items
    simp [getAvailableBlocks]

/-- Witness for C9 at a concrete listing and filters. -/
theorem listBlocks_spec_witness :
    getAvailableBlocks (some "Calendar")
      (.ok (.arr [{ name := "calendar-01", type := .dir },
                  { name := "dashboard-01.svelte", type := .file
                    size := some 120, download_url := some "u" },
                  { name := "weird", type := .dir }])) =
      .ok (.filtered "Calendar"
        [{ name := "calendar-01", type := "complex"
           path := REGISTRY_BLOCKS_PATH ++ "/calendar-01", size := 0
           lastModified := "Directory"
           description := "Calendar component for date selection and scheduling" }]
        1 "Calendar blocks available in shadcn-svelte" filteredUsage)
    ∧ getAvailableBlocks (some "products")
      (.ok (.arr [{ name := "calendar-01", type := .dir },
                  { name := "dashboard-01.svelte", type := .file
                    size := some 120, download_url := some "u" },
                  { name := "weird", type := .dir }])) =
      .ok (.noMatch "products" [] 0 ["calendar", "dashboard", "other"]
        ("Category 'products' not found. Available categories: " ++
          "calendar, dashboard, other"))
    ∧ List.Sorted blockInfoLe
        (catList (sortBlocksRec (blocksFold
          [{ name := "calendar-01", type := .dir },
           { name := "dashboard-01.svelte", type := .file
             size := some 120, download_url := some "u" },
           { name := "weird", type := .dir }])) .calendar) :=
  ⟨listBlocks_spec.2.1 _ "Calendar" _ (by decide),
   listBlocks_spec.2.2.1 _ "products" (by decide),
   (listBlocks_spec.1 _ .calendar).2.1⟩

/-! ## Lemmas about the directory tree builder -/

/-- Descending into a child entry adds at least one path segment. -/
lemma jsSplitSlashLen_child (p n : String) :
    jsSplitSlashLen p < jsSplitSlashLen (p ++ "/" ++ n) := by
  have h : ("/" : String).data = ['/'] := rfl
  simp [jsSplitSlashLen, String.data_append, h, List.count_append,
    List.count_cons]

/-- Every path has at least one segment. -/
lemma jsSplitSlashLen_pos (p : String) : 1 ≤ jsSplitSlashLen p := by
  simp [jsSplitSlashLen]

/-- The entry loop only consults the recursive call below the segment
ceiling, and then only on child paths. -/
lemma bdtKidsG_congr (sub1 sub2 : String → Except JsError DirNode × Nat)
    (path : String)
    (h : jsSplitSlashLen path < 8 →
      ∀ n : String, sub1 (path ++ "/" ++ n) = sub2 (path ++ "/" ++ n)) :
    ∀ items : List Item, bdtKidsG sub1 path items = bdtKidsG sub2 path items := by
  intro items
  induction items with
  | nil => rfl
  | cons it rest ih =>
      rcases it with ⟨nm, ty, sz, url, sha⟩
      cases ty with
      | file =>
          simp only [bdtKidsG]
          rw [ih]
      | dir =>
          simp only [bdtKidsG]
          by_cases hc : jsSplitSlashLen path < 8
          · rw [if_pos hc, if_pos hc, h hc nm, ih]
          · rw [if_neg hc, if_neg hc, ih]
      | other =>
          simp only [bdtKidsG]
          rw [ih]

/-- Any fuel large enough for the remaining segment budget computes the same
result: the fuel in `buildDirectoryTree` is a pure presentation device. -/
lemma buildDirectoryTreeFuel_stable : ∀ (f1 f2 : Nat) (host : Host)
    (path : String),
    9 ≤ f1 + min (jsSplitSlashLen path) 8 →
    9 ≤ f2 + min (jsSplitSlashLen path) 8 →
    buildDirectoryTreeFuel host f1 path = buildDirectoryTreeFuel host f2 path := by
  intro f1
  induction f1 with
  | zero =>
      intro f2 host path h1 _
      have := min_le_right (jsSplitSlashLen path) 8
      omega
  | succ a ih =>
      intro f2 host path h1 h2
      cases f2 with
      | zero =>
          have := min_le_right (jsSplitSlashLen path) 8
          omega
      | succ b =>
          simp only [buildDirectoryTreeFuel]
          cases host.listing path with
          | error e => rfl
          | ok ld =>
              cases ld with
              | falsy => rfl
              | msgObj m => rfl
              | single it => rfl
              | arr items =>
                  have hk := bdtKidsG_congr
                    (fun p => buildDirectoryTreeFuel host a p)
                    (fun p => buildDirectoryTreeFuel host b p) path ?_ items
                  · dsimp only
                    rw [hk]
                  · intro hc n
                    have hchild := jsSplitSlashLen_child path n
                    have hmin : jsSplitSlashLen path + 1 ≤
                        min (jsSplitSlashLen (path ++ "/" ++ n)) 8 :=
                      le_min (by omega) (by omega)
                    have hminp : min (jsSplitSlashLen path) 8 =
                        jsSplitSlashLen path := min_eq_left (by omega)
                    exact ih b host (path ++ "/" ++ n) (by omega) (by omega)

/-- A bound on every child node's depth bounds the children maximum. -/
lemma depthKids_le (l : List (String × DirNode)) (k : Nat)
    (h : ∀ p ∈ l, DirNode.depth p.2 ≤ k) : depthKids l ≤ k := by
  induction l with
  | nil => simp [depthKids]
  | cons q rest ih =>
      rcases q with ⟨nm, c⟩
      simp only [depthKids]
      refine max_le (h (nm, c) (List.mem_cons_self _ _)) (ih ?_)
      intro p hp
      exact h p (List.mem_cons_of_mem _ hp)

/-- Entries of an object assignment come from the object or the assignment. -/
lemma mem_insertAssoc {α : Type} : ∀ (l : List (String × α)) (k : String)
    (v : α) (p : String × α), p ∈ insertAssoc l k v → p ∈ l ∨ p = (k, v) := by
  intro l
  induction l with
  | nil =>
      intro k v p hp
      simp only [insertAssoc] at hp
      exact Or.inr (by simpa using hp)
  | cons q rest ih =>
      intro k v p hp
      rcases q with ⟨k', v'⟩
      simp only [insertAssoc] at hp
      split at hp
      · rcases List.mem_cons.mp hp with h | h
        · exact Or.inr h
        · exact Or.inl (List.mem_cons_of_mem _ h)
      · rcases List.mem_cons.mp hp with h | h
        · exact Or.inl (h ▸ List.mem_cons_self _ _)
        · rcases ih k v p h with h2 | h2
          · exact Or.inl (List.mem_cons_of_mem _ h2)
          · exact Or.inr h2

/-- Entries of the assembled children object come from the assignment list. -/
lemma mem_assembleChildren : ∀ (l acc : List (String × DirNode))
    (p : String × DirNode),
    p ∈ List.foldl (fun a q => insertAssoc a q.1 q.2) acc l → p ∈ acc ∨ p ∈ l := by
  intro l
  induction l with
  | nil => intro acc p hp; exact Or.inl hp
  | cons q rest ih =>
      intro acc p hp
      rcases ih (insertAssoc acc q.1 q.2) p hp with h | h
      · rcases mem_insertAssoc acc q.1 q.2 p h with h2 | h2
        · exact Or.inl h2
        · right
          rw [h2]
          exact List.mem_cons_self _ _
      · exact Or.inr (List.mem_cons_of_mem _ h)

/-- Depth bound for the nodes produced by the entry loop. -/
lemma bdtKidsG_depth (sub : String → Except JsError DirNode × Nat)
    (path : String) (k : Nat) (hk : 1 ≤ k)
    (hsub : jsSplitSlashLen path < 8 →
      ∀ (n : String) (t' : DirNode),
        (sub (path ++ "/" ++ n)).1 = .ok t' → t'.depth ≤ k) :
    ∀ items, ∀ p ∈ (bdtKidsG sub path items).1, DirNode.depth p.2 ≤ k := by
  intro items
  induction items with
  | nil => simp [bdtKidsG]
  | cons it rest ih =>
      rcases it with ⟨nm, ty, sz, url, sha⟩
      intro p hp
      cases ty with
      | file =>
          simp only [bdtKidsG] at hp
          rcases List.mem_cons.mp hp with h | h
          · rw [h]; simpa [DirNode.depth] using hk
          · exact ih p h
      | dir =>
          simp only [bdtKidsG] at hp
          by_cases hc : jsSplitSlashLen path < 8
          · rw [if_pos hc] at hp
            rcases List.mem_cons.mp hp with h | h
            · rw [h]
              cases hs : (sub (path ++ "/" ++ nm)).1 with
              | ok t' =>
                  simp only [hs]
                  exact hsub hc nm t' hs
              | error e =>
                  simp only [hs]
                  simpa [DirNode.depth] using hk
            · exact ih p h
          · rw [if_neg hc] at hp
            exact ih p hp
      | other =>
          simp only [bdtKidsG] at hp
          exact ih p hp

/-- Depth bound for the recursive builder: the tree returned for a path with
`s` segments has depth at most `10 - min s 8`. -/
lemma bdtFuel_depth : ∀ (f : Nat) (host : Host) (path : String) (t : DirNode),
    (buildDirectoryTreeFuel host f path).1 = .ok t →
    t.depth ≤ 10 - min (jsSplitSlashLen path) 8 := by
  intro f
  induction f with
  | zero =>
      intro host path t h
      simp [buildDirectoryTreeFuel] at h
  | succ a ih =>
      intro host path t h
      have hm8 := min_le_right (jsSplitSlashLen path) 8
      simp only [buildDirectoryTreeFuel] at h
      cases hl : host.listing path with
      | error e => simp [hl] at h
      | ok ld =>
          cases ld with
          | falsy => simp [hl] at h
          | msgObj m => simp [hl] at h
          | single it =>
              by_cases hty : it.type = .file
              · simp only [hl, hty, if_pos] at h
                injection h with h1
                rw [← h1]
                simp only [DirNode.depth]
                omega
              · simp [hl, hty] at h
          | arr items =>
              simp only [hl] at h
              injection h with h1
              rw [← h1]
              simp only [DirNode.depth]
              have hkids : ∀ p ∈ (bdtKidsG
                  (fun p => buildDirectoryTreeFuel host a p) path items).1,
                  DirNode.depth p.2 ≤ 9 - min (jsSplitSlashLen path) 8 := by
                refine bdtKidsG_depth _ _ _ (by omega) ?_ items
                intro hc n t' ht'
                have hchild := jsSplitSlashLen_child path n
                have hmin : jsSplitSlashLen path + 1 ≤
                    min (jsSplitSlashLen (path ++ "/" ++ n)) 8 :=
                  le_min (by omega) (by omega)
                have hminp : min (jsSplitSlashLen path) 8 =
                    jsSplitSlashLen path := min_eq_left (by omega)
                have := ih host (path ++ "/" ++ n) t' ht'
                omega
              have hasm : depthKids (assembleChildren
                  (bdtKidsG (fun p => buildDirectoryTreeFuel host a p)
                    path items).1) ≤ 9 - min (jsSplitSlashLen path) 8 := by
                refine depthKids_le _ _ ?_
                intro p hp
                rcases mem_assembleChildren _ [] p hp with h2 | h2
                · cases h2
                · exact hkids p h2
              omega

/-- The call-count bound is positive. -/
lemma callBound_pos (b k : Nat) : 1 ≤ callBound b k := by
  cases k with
  | zero => simp [callBound]
  | succ m => simp [callBound]

/-- The call-count bound is monotone in the depth budget. -/
lemma callBound_mono (b : Nat) : ∀ {k k' : Nat}, k ≤ k' →
    callBound b k ≤ callBound b k' := by
  have hstep : ∀ k, callBound b k ≤ callBound b (k + 1) := by
    intro k
    cases b with
    | zero =>
        have hz : ∀ m, callBound 0 m = 1 := by
          intro m
          induction m with
          | zero => rfl
          | succ m2 ihm => simp [callBound, ihm]
        simp [hz]
    | succ b2 =>
        have := callBound_pos (b2 + 1) k
        calc callBound (b2 + 1) k ≤ (b2 + 1) * callBound (b2 + 1) k :=
              Nat.le_mul_of_pos_left _ (by omega)
          _ ≤ 1 + (b2 + 1) * callBound (b2 + 1) k := by omega
          _ = callBound (b2 + 1) (k + 1) := by simp [callBound]
  intro k k' h
  induction k' with
  | zero =>
      have : k = 0 := by omega
      simp [this]
  | succ m ihm =>
      rcases Nat.eq_or_lt_of_le h with rfl | hlt
      · exact le_refl _
      · exact le_trans (ihm (by omega)) (hstep m)

/-- Count bound for the entry loop: at most one bounded recursion per entry. -/
lemma bdtKidsG_count (sub : String → Except JsError DirNode × Nat)
    (path : String) (cb : Nat)
    (hsub : jsSplitSlashLen path < 8 →
      ∀ n : String, (sub (path ++ "/" ++ n)).2 ≤ cb) :
    ∀ items : List Item, (bdtKidsG sub path items).2 ≤ items.length * cb := by
  intro items
  induction items with
  | nil => simp [bdtKidsG]
  | cons it rest ih =>
      rcases it with ⟨nm, ty, sz, url, sha⟩
      cases ty with
      | file =>
          simp only [bdtKidsG, List.length_cons]
          calc (bdtKidsG sub path rest).2 ≤ rest.length * cb := ih
            _ ≤ (rest.length + 1) * cb := by
                have : rest.length * cb ≤ rest.length * cb + cb := by omega
                simpa [Nat.succ_mul] using this
      | dir =>
          simp only [bdtKidsG, List.length_cons]
          by_cases hc : jsSplitSlashLen path < 8
          · rw [if_pos hc]
            have h1 := hsub hc nm
            have h2 := ih
            simp only [Nat.succ_mul]
            omega
          · rw [if_neg hc]
            calc (bdtKidsG sub path rest).2 ≤ rest.length * cb := ih
              _ ≤ (rest.length + 1) * cb := by
                  have : rest.length * cb ≤ rest.length * cb + cb := by omega
                  simpa [Nat.succ_mul] using this
      | other =>
          simp only [bdtKidsG, List.length_cons]
          calc (bdtKidsG sub path rest).2 ≤ rest.length * cb := ih
            _ ≤ (rest.length + 1) * cb := by
                have : rest.length * cb ≤ rest.length * cb + cb := by omega
                simpa [Nat.succ_mul] using this

/-- Count bound for the recursive builder against a host whose listings have
at most `b` entries. -/
lemma bdtFuel_count : ∀ (f : Nat) (host : Host) (b : Nat),
    (∀ (p : String) (items : List Item),
      host.listing p = .ok (.arr items) → items.length ≤ b) →
    ∀ path : String, (buildDirectoryTreeFuel host f path).2 ≤
      callBound b (8 - min (jsSplitSlashLen path) 8) := by
  intro f
  induction f with
  | zero =>
      intro host b hb path
      have := callBound_pos b (8 - min (jsSplitSlashLen path) 8)
      simp only [buildDirectoryTreeFuel]
      omega
  | succ a ih =>
      intro host b hb path
      have hpos := callBound_pos b (8 - min (jsSplitSlashLen path) 8)
      simp only [buildDirectoryTreeFuel]
      cases hl : host.listing path with
      | error e => simpa using hpos
      | ok ld =>
          cases ld with
          | falsy => simpa using hpos
          | msgObj m => simpa using hpos
          | single it =>
              by_cases hty : it.type = .file
              · simp only [hty, if_pos]
                simpa using hpos
              · simp only [hty, if_neg, ite_false]
                simpa using hpos
          | arr items =>
              simp only []
              have hlen := hb path items hl
              by_cases hc : jsSplitSlashLen path < 8
              · have hminp : min (jsSplitSlashLen path) 8 =
                    jsSplitSlashLen path := min_eq_left (by omega)
                have hkids : (bdtKidsG
                    (fun p => buildDirectoryTreeFuel host a p) path items).2 ≤
                    items.length *
                      callBound b (8 - (jsSplitSlashLen path + 1)) := by
                  refine bdtKidsG_count _ _ _ ?_ items
                  intro _ n
                  have hchild := jsSplitSlashLen_child path n
                  have hmin : jsSplitSlashLen path + 1 ≤
                      min (jsSplitSlashLen (path ++ "/" ++ n)) 8 :=
                    le_min (by omega) (by omega)
                  refine le_trans (ih host b hb (path ++ "/" ++ n)) ?_
                  exact callBound_mono b (by omega)
                have hsplit : 8 - min (jsSplitSlashLen path) 8 =
                    (8 - (jsSplitSlashLen path + 1)) + 1 := by omega
                rw [hsplit, callBound]
                have hmul : items.length *
                    callBound b (8 - (jsSplitSlashLen path + 1)) ≤
                    b * callBound b (8 - (jsSplitSlashLen path + 1)) :=
                  Nat.mul_le_mul_right _ hlen
                omega
              · have hkids : (bdtKidsG
                    (fun p => buildDirectoryTreeFuel host a p) path items).2 ≤
                    items.length * 0 := by
                  refine bdtKidsG_count _ _ _ ?_ items
                  intro hc2 _
                  exact absurd hc2 hc
                have hmin8 : min (jsSplitSlashLen path) 8 = 8 :=
                  min_eq_right (by omega)
                rw [hmin8]
                simp only [Nat.sub_self, callBound]
                omega

/-! ## Claim C6 -/

/-- C6: against any host — including one returning nested directories
indefinitely — `buildDirectoryTree` recurses into a subdirectory only while
the current path has fewer than 8 segments, so the resulting tree's depth is
bounded (`10 - min s 8` for a start path of `s` segments, hence at most 9
overall) and, when every listing has at most `b` entries, the total number of
listing calls is bounded by the finite `callBound b (8 - min s 8)`. -/
theorem buildDirectoryTree_depth_bounded :
    ∀ (host : Host) (b : Nat),
      (∀ (p : String) (items : List Item),
        host.listing p = .ok (.arr items) → items.length ≤ b) →
      ∀ path : String,
        (∀ t : DirNode, (buildDirectoryTree host path).1 = .ok t →
          t.depth ≤ 10 - min (jsSplitSlashLen path) 8 ∧ t.depth ≤ 9)
        ∧ (buildDirectoryTree host path).2 ≤
            callBound b (8 - min (jsSplitSlashLen path) 8) := by
  intro host b hb path
  constructor
  · intro t ht
    have h1 := bdtFuel_depth 9 host path t ht
    have h2 := jsSplitSlashLen_pos path
    have h3 : 1 ≤ min (jsSplitSlashLen path) 8 := le_min h2 (by omega)
    exact ⟨h1, by omega⟩
  · exact bdtFuel_count 9 host b hb path

/-- Witness for C6: a synthetic host that returns one nested directory at
every path, indefinitely.  Starting from the registry root (4 segments) the
builder issues finitely many listing calls, within the bound. -/
theorem buildDirectoryTree_depth_bounded_witness :
    (buildDirectoryTree
      { listing := fun _ => .ok (.arr [{ name := "sub", type := .dir }])
        raw := fun _ => .ok "" } "docs/src/lib/registry").2 ≤
      callBound 1 (8 - min (jsSplitSlashLen "docs/src/lib/registry") 8) :=
  (buildDirectoryTree_depth_bounded
    { listing := fun _ => .ok (.arr [{ name := "sub", type := .dir }])
      raw := fun _ => .ok "" } 1
    (by
      intro p items h
      injection h with h1
      injection h1 with h2
      rw [← h2]
      decide) "docs/src/lib/registry").2

/-! ## Claim C7 -/

/-- C7 counterexample: a `get_directory_structure` request without an
explicit path (the tool defaults the path to `REGISTRY_UI_PATH`) whose
top-level listing fails with a rate-limit error does not fall back to the
placeholder tree — the failure propagates, wrapped by the tool handler. -/
theorem getDirectoryStructure_default_rateLimited_fails :
    handleGetDirectoryStructure
      { listing := fun _ =>
          .error { message := "API rate limit exceeded for 1.2.3.4." }
        raw := fun _ => .ok "" } none none none none =
      .error { message :=
        "Failed to get directory structure: API rate limit exceeded for 1.2.3.4." } := by
  rfl

/-- C7 amended: on a top-level failure whose message mentions a rate limit,
`buildDirectoryTreeWithFallback` returns the static placeholder exactly when
the requested path equals `DOCS_BASE_PATH`; the tool's default path is
`REGISTRY_UI_PATH`, which is different, so a default-path
`get_directory_structure` request propagates the failure (wrapped in a
`Failed to get directory structure:` error) instead of falling back. -/
theorem directoryTree_fallback_characterization :
    ∀ (host : Host) (p : String) (e : JsError),
      ((buildDirectoryTree host p).1 = .error e →
        jsIncludes e.message "rate limit" = true →
        buildDirectoryTreeWithFallback host p =
          if p = DOCS_BASE_PATH then .ok getBasicSvelteStructure
          else .error e)
      ∧ ((buildDirectoryTree host REGISTRY_UI_PATH).1 = .error e →
        jsIncludes e.message "rate limit" = true →
        handleGetDirectoryStructure host none none none none =
          .error { message := "Failed to get directory structure: " ++
            e.message }) := by
  intro host p e
  constructor
  · intro h1 h2
    unfold buildDirectoryTreeWithFallback
    rw [h1]
    by_cases hp : p = DOCS_BASE_PATH
    · simp [h2, hp]
    · simp [h2, hp]
  · intro h1 h2
    have hne : ¬ (REGISTRY_UI_PATH = DOCS_BASE_PATH) := by decide
    unfold handleGetDirectoryStructure buildDirectoryTreeWithFallback
    dsimp only [jsOrStrOpt]
    rw [h1]
    simp [h2, hne]

/-- Witness for the amended C7 at a concrete rate-limited host. -/
theorem directoryTree_fallback_characterization_witness :
    buildDirectoryTreeWithFallback
      { listing := fun _ =>
          .error { message := "API rate limit exceeded for 1.2.3.4." }
        raw := fun _ => .ok "" } DOCS_BASE_PATH = .ok getBasicSvelteStructure
    ∧ handleGetDirectoryStructure
      { listing := fun _ =>
          .error { message := "API rate limit exceeded for 1.2.3.4." }
        raw := fun _ => .ok "" } none none none none =
      .error { message :=
        "Failed to get directory structure: API rate limit exceeded for 1.2.3.4." } :=
  ⟨((directoryTree_fallback_characterization
      { listing := fun _ =>
          .error { message := "API rate limit exceeded for 1.2.3.4." }
        raw := fun _ => .ok "" } DOCS_BASE_PATH
      { message := "API rate limit exceeded for 1.2.3.4." }).1
      rfl (by decide)).trans (if_pos rfl),
   (directoryTree_fallback_characterization
      { listing := fun _ =>
          .error { message := "API rate limit exceeded for 1.2.3.4." }
        raw := fun _ => .ok "" } DOCS_BASE_PATH
      { message := "API rate limit exceeded for 1.2.3.4." }).2
      rfl (by decide)⟩

end ShadcnMcp
